import Mathlib

/-!
The Unbound provider of external-dns-unbound-webhook.

A shallow embedding of `internal/unbound/unbound.go` (and of the `mockClient`
of `internal/unbound/unbound_test.go`) together with the properties proved
about it.

Conventions of the embedding.

* Go strings are Lean `String`s.
* `int` and `endpoint.TTL` (an `int64`) are both `Int`; the conversions
  `int(e.RecordTTL)` and `endpoint.TTL(r.TTL)` are the identity, as they are on
  the 64-bit platforms the webhook is built for.
* The resolver client `unboundlib.Client` is an interface: it is a record of
  state-passing functions over an arbitrary state type. A call either returns
  (with an `error`, `none` standing for `nil`) or panics (`none` at the outer
  level).
* `[]*endpoint.Endpoint` arguments that are only read are passed as lists of
  endpoint values; `AdjustEndpoints`, which writes through the pointers, works
  on a heap. The pointers handed to the provider are never nil; the pointer
  that `endpoint.NewEndpointWithTTL` returns may be nil and is an `Option`.
* The functions of the external-dns library that the provider calls are not
  part of this repository; they are the fields of `Library`.
* Logging is not modelled.
-/

namespace Unbound

/-! ## Data model -/

/-- A Go `error` value, identified with its message. -/
abbrev Error := String

/-- The action tag of an upsert, `actionCreate` of the source. -/
def actionCreate : String := "CREATE"

/-- The action tag of a removal, `actionRemove` of the source. -/
def actionRemove : String := "REMOVE"

/-- The resolver-native resource record `unboundlib.RR`. -/
structure RR where
  Name : String
  TTL : Int
  Type_ : String
  Value : String
deriving DecidableEq

/-- The record `endpoint.Endpoint` of external-dns. -/
structure Endpoint where
  DNSName : String
  Targets : List String
  RecordType : String
  SetIdentifier : String
  RecordTTL : Int
  Labels : List (String × String)
  ProviderSpecific : List (String × String)
deriving DecidableEq

/-- The four-way diff `plan.Changes` of external-dns. -/
structure Changes where
  Create : List Endpoint
  UpdateOld : List Endpoint
  UpdateNew : List Endpoint
  Delete : List Endpoint
deriving DecidableEq

/-- The struct `UnboundChange` of the source; `RR` is never a nil pointer
since `newUnboundChange` is the only place that builds one. -/
structure UnboundChange where
  Action : String
  RR : RR
deriving DecidableEq

/-- The functions of the external-dns library called by the provider:
`endpoint.TTL.IsConfigured`, `provider.SupportedRecordType` and
`endpoint.NewEndpointWithTTL`, whose result is a pointer that may be nil
(`none`). -/
structure Library where
  IsConfigured : Int → Bool
  SupportedRecordType : String → Bool
  NewEndpointWithTTL : String → String → Int → List String → Option Endpoint

/-- The interface `unboundlib.Client` over a client state `σ`. The outer
`Option` is `none` when the call panics; the inner `Option Error` is the
returned `error`. -/
structure Client (σ : Type) where
  LocalData : σ → Option (List RR × σ)
  AddLocalData : RR → σ → Option (Option Error × σ)
  RemoveLocalData : RR → σ → Option (Option Error × σ)

/-- The struct `UnboundProvider` of the source; `domainFilter` is the `Match`
method of the provider's `endpoint.DomainFilter`. -/
structure UnboundProvider (σ : Type) where
  client : Client σ
  domainFilter : String → Bool
  dryRun : Bool
  defaultTTL : Int

/-! ## The provider -/

/-- Go's `strings.HasSuffix`:
`len(s) >= len(suffix) && s[len(s)-len(suffix):] == suffix`. -/
def HasSuffix (s suffix : String) : Bool :=
  decide (suffix.length ≤ s.length) &&
    decide (s.data.drop (s.length - suffix.length) = suffix.data)

/-- The method `Records` of the source: the loop over `p.client.LocalData()`
appends, for each record of a supported type whose name passes the domain
filter, the pointer that `endpoint.NewEndpointWithTTL` returns. The returned
error is always `nil`. -/
def Records {σ : Type} (lib : Library) (p : UnboundProvider σ) (s : σ) :
    Option ((List (Option Endpoint) × Option Error) × σ) :=
  match p.client.LocalData s with
  | none => none
  | some (records, s1) =>
    let endpoints := records.foldl (fun (endpoints : List (Option Endpoint)) (r : RR) =>
      if lib.SupportedRecordType r.Type_ then
        if !p.domainFilter r.Name then endpoints
        else endpoints ++ [lib.NewEndpointWithTTL r.Name r.Type_ r.TTL [r.Value]]
      else endpoints) []
    some ((endpoints, none), s1)

/-- The loop of `submitChanges`, run on the changes that are left. -/
def submitLoop {σ : Type} (p : UnboundProvider σ) :
    List UnboundChange → σ → Option (Option Error × σ)
  | [], s => some (none, s)
  | change :: rest, s =>
    if p.dryRun then submitLoop p rest s
    else if change.Action = actionCreate then
      match p.client.AddLocalData change.RR s with
      | none => none
      | some (some err, s1) => some (some err, s1)
      | some (none, s1) => submitLoop p rest s1
    else if change.Action = actionRemove then
      match p.client.RemoveLocalData change.RR s with
      | none => none
      | some (some err, s1) => some (some err, s1)
      | some (none, s1) => submitLoop p rest s1
    else submitLoop p rest s

/-- The method `submitChanges` of the source. -/
def submitChanges {σ : Type} (p : UnboundProvider σ) (changes : List UnboundChange)
    (s : σ) : Option (Option Error × σ) :=
  if changes.length = 0 then some (none, s)
  else submitLoop p changes s

/-- The method `newUnboundChange` of the source: the outer loop runs over the
endpoints and chooses the TTL, the inner loop appends one change per target. -/
def newUnboundChange {σ : Type} (lib : Library) (p : UnboundProvider σ) (action : String)
    (endpoints : List Endpoint) : List UnboundChange :=
  endpoints.foldl (fun (changes : List UnboundChange) (e : Endpoint) =>
    let ttl : Int := if lib.IsConfigured e.RecordTTL then e.RecordTTL else p.defaultTTL
    e.Targets.foldl (fun (changes : List UnboundChange) (t : String) =>
      changes ++ [{ Action := action,
                    RR := { Name := e.DNSName, TTL := ttl, Type_ := e.RecordType, Value := t } }])
      changes) []

/-- The slice `combinedChanges` that `ApplyChanges` hands to `submitChanges`. -/
def combinedChanges {σ : Type} (lib : Library) (p : UnboundProvider σ) (changes : Changes) :
    List UnboundChange :=
  ((([] ++ newUnboundChange lib p actionCreate changes.Create)
      ++ newUnboundChange lib p actionRemove changes.UpdateOld)
      ++ newUnboundChange lib p actionCreate changes.UpdateNew)
      ++ newUnboundChange lib p actionRemove changes.Delete

/-- The method `ApplyChanges` of the source. -/
def ApplyChanges {σ : Type} (lib : Library) (p : UnboundProvider σ) (changes : Changes)
    (s : σ) : Option (Option Error × σ) :=
  submitChanges p (combinedChanges lib p changes) s

/-- An address of an `endpoint.Endpoint` on the heap. -/
abbrev Ptr := Nat

/-- The heap of endpoints that `[]*endpoint.Endpoint` values point into. -/
abbrev Heap := Ptr → Endpoint

/-- The method `AdjustEndpoints` of the source. The loop writes the dotted name
through the pointer `ep` and appends the pointer to the result; the receiver is
not used. -/
def AdjustEndpoints (endpoints : List Ptr) (h : Heap) : (List Ptr × Option Error) × Heap :=
  let r := endpoints.foldl (fun (acc : List Ptr × Heap) (ep : Ptr) =>
    let h1 : Heap :=
      if !HasSuffix (acc.2 ep).DNSName "." then
        Function.update acc.2 ep { acc.2 ep with DNSName := (acc.2 ep).DNSName ++ "." }
      else acc.2
    (acc.1 ++ [ep], h1)) ([], h)
  ((r.1, none), r.2)

/-! ## The mock client of the tests -/

/-- One iteration of the loop of `mockClient.RemoveLocalData`. The `range`
runs over the slice as it was when the loop started, reading the shared backing
array `arr`; `len` is the current length of `m.records`. On a match,
`m.records[i+1:]` panics when `i+1` exceeds the current length; otherwise the
elements `i+1 .. len-1` are moved one place down and the length shrinks. -/
def mockRemoveStep (rr : RR) (st : List RR × Nat) (i : Nat) : Option (List RR × Nat) :=
  if st.1.get? i = some rr then
    if i + 1 ≤ st.2 then
      some (st.1.take i ++ (st.1.drop (i + 1)).take (st.2 - (i + 1)) ++ st.1.drop (st.2 - 1),
            st.2 - 1)
    else none
  else some st

/-- The `mockClient` of `unbound_test.go`; its state is `m.records`. -/
def mockClient : Client (List RR) where
  LocalData := fun records => some (records, records)
  AddLocalData := fun rr records => some (none, records ++ [rr])
  RemoveLocalData := fun rr records =>
    match (List.range records.length).foldlM (mockRemoveStep rr) (records, records.length) with
    | none => none
    | some (arr, len) => some (none, arr.take len)

/-! ## Observing the calls made on a client -/

/-- A call on the resolver client. -/
inductive Call where
  | list
  | add (rr : RR)
  | remove (rr : RR)
deriving DecidableEq

/-- The effect of one call on a client. -/
def execCall {σ : Type} (c : Client σ) : Call → σ → Option (Option Error × σ)
  | Call.list, s => (c.LocalData s).map (fun r => (none, r.2))
  | Call.add rr, s => c.AddLocalData rr s
  | Call.remove rr, s => c.RemoveLocalData rr s

/-- The client `c` with a journal: every call is passed on to `c` and, when it
returns, recorded at the end of the journal. -/
def traced {σ : Type} (c : Client σ) : Client (σ × List Call) where
  LocalData := fun s => (c.LocalData s.1).map (fun r => (r.1, (r.2, s.2 ++ [Call.list])))
  AddLocalData := fun rr s =>
    (c.AddLocalData rr s.1).map (fun r => (r.1, (r.2, s.2 ++ [Call.add rr])))
  RemoveLocalData := fun rr s =>
    (c.RemoveLocalData rr s.1).map (fun r => (r.1, (r.2, s.2 ++ [Call.remove rr])))

/-- The provider `p` with its client replaced by the journalled one. -/
def withJournal {σ : Type} (p : UnboundProvider σ) : UnboundProvider (σ × List Call) :=
  { client := traced p.client, domainFilter := p.domainFilter,
    dryRun := p.dryRun, defaultTTL := p.defaultTTL }

/-- The state reached by issuing `calls` in order from `s` when every one of
them returns a nil error; `none` when one of them fails or panics. -/
def runOk {σ : Type} (c : Client σ) : List Call → σ → Option σ
  | [], s => some s
  | call :: rest, s =>
    match execCall c call s with
    | some (none, s1) => runOk c rest s1
    | _ => none

/-- The TTL rule of the specification: the TTL of the endpoint when it is
configured, the default TTL otherwise. -/
def recordTTL (lib : Library) (defaultTTL : Int) (e : Endpoint) : Int :=
  if lib.IsConfigured e.RecordTTL then e.RecordTTL else defaultTTL

/-- The `expand(endpoint, defaultTTL)` of the specification: one record per
target, in target order, sharing the name, type and TTL. -/
def expand (lib : Library) (defaultTTL : Int) (e : Endpoint) : List RR :=
  e.Targets.map (fun t =>
    { Name := e.DNSName, TTL := recordTTL lib defaultTTL e, Type_ := e.RecordType, Value := t })

/-- The operation sequence of the specification for a change set, as calls on
the client, in the order of the four groups: adds for `Create`, removes for
`UpdateOld`, adds for `UpdateNew`, removes for `Delete`; each group in endpoint
order and, inside an endpoint, in target order. -/
def plannedCalls (lib : Library) (defaultTTL : Int) (changes : Changes) : List Call :=
  (changes.Create.flatMap (expand lib defaultTTL)).map Call.add
    ++ (changes.UpdateOld.flatMap (expand lib defaultTTL)).map Call.remove
    ++ (changes.UpdateNew.flatMap (expand lib defaultTTL)).map Call.add
    ++ (changes.Delete.flatMap (expand lib defaultTTL)).map Call.remove

/-- The call that `submitChanges` makes for a change. -/
def callOf (change : UnboundChange) : Call :=
  if change.Action = actionCreate then Call.add change.RR else Call.remove change.RR

/-- A change whose action is one of the two tags of the source. -/
def KnownAction (change : UnboundChange) : Prop :=
  change.Action = actionCreate ∨ change.Action = actionRemove

/-- A resolver store in which `LocalData` returns the store, `AddLocalData`
appends the record and `RemoveLocalData` deletes every record equal to its
argument; no call fails. -/
def storeClient : Client (List RR) where
  LocalData := fun records => some (records, records)
  AddLocalData := fun rr records => some (none, records ++ [rr])
  RemoveLocalData := fun rr records => some (none, records.filter (fun r => decide (r ≠ rr)))

/-- A client over the state `List RR` whose `AddLocalData` refuses the records
named `bad` with an error and appends any other one. -/
def refusingClient (bad : String) : Client (List RR) where
  LocalData := fun records => some (records, records)
  AddLocalData := fun rr records =>
    if rr.Name = bad then some (some "refused", records) else some (none, records ++ [rr])
  RemoveLocalData := fun rr records => some (none, records.filter (fun r => decide (r ≠ rr)))

/-- Go's `strings.TrimSuffix`: `s` without the trailing `suffix` when it has
one, `s` itself otherwise. -/
def TrimSuffix (s suffix : String) : String :=
  if HasSuffix s suffix then String.mk (s.data.take (s.length - suffix.length)) else s

/-- The pieces of a list of characters between the occurrences of `sep`. -/
def splitChars (sep : Char) : List Char → List (List Char)
  | [] => [[]]
  | c :: cs =>
    if c = sep then [] :: splitChars sep cs
    else
      match splitChars sep cs with
      | [] => [[c]]
      | piece :: pieces => (c :: piece) :: pieces

/-- Go's `strings.Split(s, sep)` for a separator of one character. -/
def Split (s : String) (sep : Char) : List String :=
  (splitChars sep s.data).map String.mk

/-- Whether no label of `dnsName` is longer than 63 bytes, the test that
`endpoint.NewEndpointWithTTL` makes on the pieces of `strings.Split(dnsName, ".")`. -/
def LabelsFit (dnsName : String) : Bool :=
  (Split dnsName '.').all (fun label => decide (label.utf8ByteSize ≤ 63))

/-- The function `endpoint.NewEndpointWithTTL` of external-dns, which `Records`
calls and which is not part of this repository. It returns nil when a label of
`dnsName` is longer than 63 bytes; otherwise it builds the endpoint with the
name and every target stripped of one trailing dot, the given type and TTL,
the empty labels of `NewLabels()` and nothing else. -/
def NewEndpointWithTTL (dnsName recordType : String) (ttl : Int) (targets : List String) :
    Option Endpoint :=
  if LabelsFit dnsName then
    some { DNSName := TrimSuffix dnsName ".",
           Targets := targets.map (fun target => TrimSuffix target "."),
           RecordType := recordType, SetIdentifier := "", RecordTTL := ttl, Labels := [],
           ProviderSpecific := [] }
  else none

/-- The external-dns library with its constructor of endpoints, over the two
predicates `IsConfigured` and `SupportedRecordType`. -/
def externalDNS (isConfigured : Int → Bool) (supportedRecordType : String → Bool) : Library where
  IsConfigured := isConfigured
  SupportedRecordType := supportedRecordType
  NewEndpointWithTTL := NewEndpointWithTTL

/-- The external-dns library in which a TTL is configured when it is positive
and the supported record types are the six listed. -/
def plainLibrary : Library where
  IsConfigured := fun ttl => decide (0 < ttl)
  SupportedRecordType := fun t => decide (t ∈ ["A", "AAAA", "CNAME", "SRV", "TXT", "NS"])
  NewEndpointWithTTL := NewEndpointWithTTL

/-- A provider on `client` with no domain restriction. -/
def openProvider {σ : Type} (client : Client σ) (dryRun : Bool) (defaultTTL : Int) :
    UnboundProvider σ :=
  { client := client, domainFilter := fun _ => true, dryRun := dryRun, defaultTTL := defaultTTL }

/-- The endpoint `name`/`A` with the given targets and TTL and nothing else. -/
def endpointA (name : String) (targets : List String) (ttl : Int) : Endpoint :=
  { DNSName := name, Targets := targets, RecordType := "A", SetIdentifier := "",
    RecordTTL := ttl, Labels := [], ProviderSpecific := [] }

/-- The records of a listing that `Records` keeps: those of a supported type
whose name passes the domain filter. -/
def kept {σ : Type} (lib : Library) (p : UnboundProvider σ) (records : List RR) : List RR :=
  records.filter (fun r => lib.SupportedRecordType r.Type_ && p.domainFilter r.Name)

/-- The name, type, targets and TTL of an endpoint. -/
def Endpoint.view (e : Endpoint) : String × String × List String × Int :=
  (e.DNSName, e.RecordType, e.Targets, e.RecordTTL)

/-- A provider on `client` whose domain filter accepts the names ending in
`suffix`. -/
def suffixProvider {σ : Type} (client : Client σ) (suffix : String) (dryRun : Bool)
    (defaultTTL : Int) : UnboundProvider σ :=
  { client := client, domainFilter := fun name => HasSuffix name suffix, dryRun := dryRun,
    defaultTTL := defaultTTL }

/-- The endpoint `e` with a trailing dot added to its name when it has none. -/
def dotted (e : Endpoint) : Endpoint :=
  { e with DNSName := if HasSuffix e.DNSName "." then e.DNSName else e.DNSName ++ "." }

/-- A heap holding `a.test.lan` at address 0 and `b.test.lan.` everywhere
else. -/
def sampleHeap : Heap :=
  fun ep => if ep = 0 then endpointA "a.test.lan" ["192.168.1.1"] 300
    else endpointA "b.test.lan." ["192.168.1.2"] 300

/-- A listing of names with a trailing dot: a name outside `example.com.`, a
record of an unsupported type and two records of the same name and type. -/
def dottedListing : List RR :=
  [{ Name := "test.lan.", TTL := 300, Type_ := "A", Value := "192.168.1.1" },
   { Name := "a.example.com.", TTL := 3600, Type_ := "CNAME", Value := "abc.def." },
   { Name := "m.example.com.", TTL := 60, Type_ := "MX", Value := "mail.example.com." },
   { Name := "a.example.com.", TTL := 3600, Type_ := "CNAME", Value := "abc.xyz." }]

/-- The record `name`/`A` with the given value and TTL. -/
def recordA (name value : String) (ttl : Int) : RR :=
  { Name := name, TTL := ttl, Type_ := "A", Value := value }

/-- A change set touching three names: two creations, one update and one
deletion. -/
def sampleChanges : Changes :=
  { Create := [endpointA "a.lan" ["10.0.0.1", "10.0.0.2"] 0, endpointA "b.lan" ["10.0.0.3"] 60],
    UpdateOld := [endpointA "c.lan" ["10.0.0.4"] 300],
    UpdateNew := [endpointA "c.lan" ["10.0.0.5"] 300],
    Delete := [endpointA "d.lan" ["10.0.0.6"] 0] }

/-- A change set all of whose endpoints have no target. -/
def hollowChanges : Changes :=
  { Create := [endpointA "a.lan" [] 300],
    UpdateOld := [],
    UpdateNew := [],
    Delete := [endpointA "b.lan" [] 0] }

/-! ## The domain filter -/

/-- The struct `Configuration` of the source. -/
structure Configuration where
  Host : String
  CaPemPath : String
  KeyPemPath : String
  CertPemPath : String
  DryRun : Bool
  DefaultTTL : Int
  DomainFilter : List String
  ExcludeDomains : List String
  RegexDomainFilter : String
  RegexDomainExclusion : String
deriving DecidableEq

/-- The functions that `GetDomainFilter` and `Records` call on Go's `regexp`
package and on the `endpoint.DomainFilter` of external-dns, over the type
`Regexp` of compiled patterns and the type `F` of filters. `MustCompile` is
`none` when it panics. -/
structure FilterLibrary (Regexp F : Type) where
  MustCompile : String → Option Regexp
  NewRegexDomainFilter : Regexp → Regexp → F
  NewDomainFilterWithExclusions : List String → List String → F
  Match : F → String → Bool

/-- The function `GetDomainFilter` of the source; the message it logs is not
modelled. The result is `none` when one of the two `regexp.MustCompile`
panics. -/
def GetDomainFilter {Regexp F : Type} (fl : FilterLibrary Regexp F) (config : Configuration) :
    Option F :=
  if config.RegexDomainFilter ≠ "" then
    match fl.MustCompile config.RegexDomainFilter with
    | none => none
    | some inclusion =>
      match fl.MustCompile config.RegexDomainExclusion with
      | none => none
      | some exclusion => some (fl.NewRegexDomainFilter inclusion exclusion)
  else some (fl.NewDomainFilterWithExclusions config.DomainFilter config.ExcludeDomains)

/-- The provider of the tests: the given client and configuration values, with
the `Match` method of the filter `f` as domain filter. -/
def providerWith {σ Regexp F : Type} (fl : FilterLibrary Regexp F) (client : Client σ) (f : F)
    (dryRun : Bool) (defaultTTL : Int) : UnboundProvider σ :=
  { client := client, domainFilter := fl.Match f, dryRun := dryRun, defaultTTL := defaultTTL }

/-- Modelled from the spec: the `DomainFilterSpec` of §3, standing for the
`endpoint.DomainFilter` of external-dns, whose code is not among the sources:
either plain inclusion and exclusion lists or an inclusion and an exclusion
pattern. -/
inductive SpecFilter where
  | plainLists (included excluded : List String)
  | regexLists (includePattern excludePattern : String)
deriving DecidableEq

/-- Modelled from the spec: the `match` of §4.1, standing for the method
`Match` of `endpoint.DomainFilter`, whose code is not among the sources. With
plain lists a name matches when the inclusion list is empty or has an entry
that is a suffix of the name, and the exclusion list is empty or has no entry
that is a suffix of the name. With patterns a name matches when it matches the
inclusion pattern and does not match a non-empty exclusion pattern.
`matchString pattern name` is the regular-expression engine. -/
def SpecFilter.Match (matchString : String → String → Bool) : SpecFilter → String → Bool
  | SpecFilter.plainLists included excluded, name =>
    (included.isEmpty || included.any (fun entry => HasSuffix name entry))
      && (excluded.isEmpty || !excluded.any (fun entry => HasSuffix name entry))
  | SpecFilter.regexLists includePattern excludePattern, name =>
    matchString includePattern name
      && !(decide (excludePattern ≠ "") && matchString excludePattern name)

/-- Modelled from the spec: the filter library of §4.1, on the filters of the
specification. Patterns are compiled to themselves when `compiles` accepts
them; an invalid pattern is a fatal construction error. -/
def specFilterLibrary (compiles : String → Bool) (matchString : String → String → Bool) :
    FilterLibrary String SpecFilter where
  MustCompile := fun pattern => if compiles pattern then some pattern else none
  NewRegexDomainFilter := fun inclusion exclusion => SpecFilter.regexLists inclusion exclusion
  NewDomainFilterWithExclusions := fun included excluded => SpecFilter.plainLists included excluded
  Match := SpecFilter.Match matchString

/-- Whether `pattern` occurs in `name`. -/
def occursIn (pattern name : String) : Bool :=
  name.data.tails.any (fun rest => pattern.data.isPrefixOf rest)

/-- A regular-expression engine for the patterns made of letters and digits
only: such a pattern matches the strings it occurs in. Other patterns are
rejected. -/
def literalFilterLibrary : FilterLibrary String SpecFilter :=
  specFilterLibrary (fun pattern => pattern.data.all Char.isAlphanum) occursIn

/-- A configuration for the resolver at `unbound:8953` with the given filter
settings. -/
def configWith (domainFilter excludeDomains : List String)
    (regexDomainFilter regexDomainExclusion : String) : Configuration :=
  { Host := "unbound:8953", CaPemPath := "", KeyPemPath := "", CertPemPath := "",
    DryRun := false, DefaultTTL := 300, DomainFilter := domainFilter,
    ExcludeDomains := excludeDomains, RegexDomainFilter := regexDomainFilter,
    RegexDomainExclusion := regexDomainExclusion }

/-- A client whose `AddLocalData` and `RemoveLocalData` always return the
error `msg` and change nothing. -/
def brokenClient (msg : Error) : Client (List RR) where
  LocalData := fun records => some (records, records)
  AddLocalData := fun _ records => some (some msg, records)
  RemoveLocalData := fun _ records => some (some msg, records)

/-! ## The health status -/

/-- Modelled from the spec: the struct `HealthStatus` of
`internal/server/health.go`, which is not among the sources:
`{ healthy: bool, ready: bool }` (§3), with the field names that
`health_test.go` uses. The lock guarding the flags is not modelled. -/
structure HealthStatus where
  healthy : Bool
  ready : Bool
deriving DecidableEq

/-- Modelled from the spec: the method `SetHealth` of `HealthStatus`, which is
not among the sources; `setHealthy(bool)` of §4.4. -/
def HealthStatus.SetHealth (s : HealthStatus) (healthy : Bool) : HealthStatus :=
  { s with healthy := healthy }

/-- Modelled from the spec: the method `SetReady` of `HealthStatus`, which is
not among the sources; `setReady(bool)` of §4.4. -/
def HealthStatus.SetReady (s : HealthStatus) (ready : Bool) : HealthStatus :=
  { s with ready := ready }

/-- Modelled from the spec: the method `IsHealthy` of `HealthStatus`, which is
not among the sources; `isHealthy() -> bool` of §4.4. -/
def HealthStatus.IsHealthy (s : HealthStatus) : Bool := s.healthy

/-- Modelled from the spec: the method `IsReady` of `HealthStatus`, which is
not among the sources; `isReady() -> bool` of §4.4. -/
def HealthStatus.IsReady (s : HealthStatus) : Bool := s.ready

/-- The value `server.HealthStatus{}` that `main` and the tests start from. -/
def HealthStatus.zero : HealthStatus := { healthy := false, ready := false }

/-- The HTTP status `http.StatusOK`. -/
def StatusOK : Nat := 200

/-- The HTTP status `http.StatusServiceUnavailable`. -/
def StatusServiceUnavailable : Nat := 503

/-- Modelled from the spec: the probe routes of `HealthServer`
(`internal/server/health.go`, which is not among the sources), after the table
of §6: the answer to a request for `path` and the status left behind. The
specification describes the three routes only; the answer is `none` for any
other path. -/
def HealthServer.serve (path : String) (s : HealthStatus) : Option Nat × HealthStatus :=
  if path = "/" ∨ path = "/ready" then
    (some (if s.IsReady then StatusOK else StatusServiceUnavailable), s)
  else if path = "/health" then
    (some (if s.IsHealthy then StatusOK else StatusServiceUnavailable), s)
  else (none, s)

/-! ## Auxiliary lemmas -/

theorem foldl_snoc_eq_map {α β : Type} (f : α → β) (l : List α) (init : List β) :
    l.foldl (fun acc a => acc ++ [f a]) init = init ++ l.map f := by
  induction l generalizing init with
  | nil => simp
  | cons a l ih => simp [ih]

theorem foldl_append_eq_flatMap {α β : Type} (g : α → List β) (l : List α) (init : List β) :
    l.foldl (fun acc a => acc ++ g a) init = init ++ l.flatMap g := by
  induction l generalizing init with
  | nil => simp
  | cons a l ih => simp [ih]

theorem newUnboundChange_eq {σ : Type} (lib : Library) (p : UnboundProvider σ)
    (action : String) (endpoints : List Endpoint) :
    newUnboundChange lib p action endpoints =
      endpoints.flatMap (fun e =>
        (expand lib p.defaultTTL e).map (fun rr => { Action := action, RR := rr })) := by
  unfold newUnboundChange
  have h : ∀ (changes : List UnboundChange) (e : Endpoint),
      e.Targets.foldl (fun (changes : List UnboundChange) (t : String) =>
        changes ++ [{ Action := action,
                      RR := { Name := e.DNSName,
                              TTL := if lib.IsConfigured e.RecordTTL then e.RecordTTL
                                     else p.defaultTTL,
                              Type_ := e.RecordType, Value := t } }]) changes
      = changes ++ (expand lib p.defaultTTL e).map (fun rr => { Action := action, RR := rr }) := by
    intro changes e
    rw [foldl_snoc_eq_map]
    simp [expand, recordTTL, List.map_map, Function.comp_def]
  simp only [h]
  rw [foldl_append_eq_flatMap]
  simp

theorem newUnboundChange_single {σ : Type} (lib : Library) (p : UnboundProvider σ)
    (action : String) (e : Endpoint) :
    newUnboundChange lib p action [e] =
      e.Targets.map (fun t =>
        { Action := action,
          RR := { Name := e.DNSName, TTL := recordTTL lib p.defaultTTL e,
                  Type_ := e.RecordType, Value := t } }) := by
  rw [newUnboundChange_eq]
  simp [expand, List.map_map, Function.comp_def]

theorem callOf_create (rr : RR) : callOf { Action := actionCreate, RR := rr } = Call.add rr := by
  simp [callOf]

theorem callOf_remove (rr : RR) : callOf { Action := actionRemove, RR := rr } = Call.remove rr := by
  have h : actionRemove ≠ actionCreate := by decide
  simp [callOf, h]

theorem knownAction_newUnboundChange {σ : Type} (lib : Library) (p : UnboundProvider σ)
    (action : String) (ha : action = actionCreate ∨ action = actionRemove)
    (endpoints : List Endpoint) :
    ∀ c ∈ newUnboundChange lib p action endpoints, KnownAction c := by
  intro c hc
  rw [newUnboundChange_eq] at hc
  simp only [List.mem_flatMap, List.mem_map] at hc
  obtain ⟨_, _, rr, _, rfl⟩ := hc
  exact ha

theorem knownAction_combinedChanges {σ : Type} (lib : Library) (p : UnboundProvider σ)
    (changes : Changes) : ∀ c ∈ combinedChanges lib p changes, KnownAction c := by
  intro c hc
  simp only [combinedChanges, List.mem_append, List.nil_append] at hc
  rcases hc with ((hc | hc) | hc) | hc
  · exact knownAction_newUnboundChange lib p _ (Or.inl rfl) _ c hc
  · exact knownAction_newUnboundChange lib p _ (Or.inr rfl) _ c hc
  · exact knownAction_newUnboundChange lib p _ (Or.inl rfl) _ c hc
  · exact knownAction_newUnboundChange lib p _ (Or.inr rfl) _ c hc

theorem map_callOf_newUnboundChange_create {σ : Type} (lib : Library) (p : UnboundProvider σ)
    (endpoints : List Endpoint) :
    (newUnboundChange lib p actionCreate endpoints).map callOf =
      (endpoints.flatMap (expand lib p.defaultTTL)).map Call.add := by
  rw [newUnboundChange_eq]
  induction endpoints with
  | nil => simp
  | cons e es ih =>
    simp only [List.flatMap_cons, List.map_append, ih, List.map_map]
    congr 1

theorem map_callOf_newUnboundChange_remove {σ : Type} (lib : Library) (p : UnboundProvider σ)
    (endpoints : List Endpoint) :
    (newUnboundChange lib p actionRemove endpoints).map callOf =
      (endpoints.flatMap (expand lib p.defaultTTL)).map Call.remove := by
  rw [newUnboundChange_eq]
  induction endpoints with
  | nil => simp
  | cons e es ih =>
    simp only [List.flatMap_cons, List.map_append, ih, List.map_map]
    congr 1

theorem map_callOf_combinedChanges {σ : Type} (lib : Library) (p : UnboundProvider σ)
    (changes : Changes) :
    (combinedChanges lib p changes).map callOf = plannedCalls lib p.defaultTTL changes := by
  simp only [combinedChanges, plannedCalls, List.nil_append, List.map_append,
    map_callOf_newUnboundChange_create, map_callOf_newUnboundChange_remove]

theorem submitChanges_eq_submitLoop {σ : Type} (p : UnboundProvider σ)
    (changes : List UnboundChange) (s : σ) :
    submitChanges p changes s = submitLoop p changes s := by
  cases changes with
  | nil => simp [submitChanges, submitLoop]
  | cons c cs => simp [submitChanges]

/-- One iteration of the loop of `submitChanges` on a journalled client, dry-run
disabled: the call of the change is made and recorded, and the loop goes on
only when it returned a nil error. -/
theorem submitLoop_step {σ : Type} (p : UnboundProvider σ) (hdry : p.dryRun = false)
    (change : UnboundChange) (hk : KnownAction change) (rest : List UnboundChange)
    (s : σ) (j : List Call) :
    submitLoop (withJournal p) (change :: rest) (s, j) =
      match execCall p.client (callOf change) s with
      | none => none
      | some (some err, s1) => some (some err, (s1, j ++ [callOf change]))
      | some (none, s1) => submitLoop (withJournal p) rest (s1, j ++ [callOf change]) := by
  have hne : actionRemove ≠ actionCreate := by decide
  rcases hk with hk | hk
  · have hc : callOf change = Call.add change.RR := by simp [callOf, hk]
    rw [hc]
    simp only [submitLoop, withJournal, hdry, hk, traced, execCall]
    cases h : p.client.AddLocalData change.RR s with
    | none => simp
    | some r =>
      obtain ⟨e, s1⟩ := r
      cases e <;> simp
  · have hc : callOf change = Call.remove change.RR := by simp [callOf, hk, hne]
    rw [hc]
    simp only [submitLoop, withJournal, hdry, hk, traced, execCall]
    cases h : p.client.RemoveLocalData change.RR s with
    | none => simp [hne]
    | some r =>
      obtain ⟨e, s1⟩ := r
      cases e <;> simp [hne]

theorem runOk_cons {σ : Type} (c : Client σ) (call : Call) (rest : List Call) (s t : σ)
    (h : runOk c (call :: rest) s = some t) :
    ∃ s1, execCall c call s = some (none, s1) ∧ runOk c rest s1 = some t := by
  unfold runOk at h
  split at h
  · next s1 heq => exact ⟨s1, heq, h⟩
  · cases h

theorem submitLoop_ok {σ : Type} (p : UnboundProvider σ) (hdry : p.dryRun = false)
    (changes : List UnboundChange) (hk : ∀ c ∈ changes, KnownAction c) (s t : σ) (j : List Call)
    (hrun : runOk p.client (changes.map callOf) s = some t) :
    submitLoop (withJournal p) changes (s, j) = some (none, (t, j ++ changes.map callOf)) := by
  induction changes generalizing s j with
  | nil =>
    simp only [List.map_nil, runOk, Option.some.injEq] at hrun
    simp [submitLoop, hrun]
  | cons c cs ih =>
    obtain ⟨s1, h1, h2⟩ := runOk_cons _ _ _ _ _ hrun
    rw [submitLoop_step p hdry c (hk c (List.mem_cons_self _ _)), h1]
    simp only
    rw [ih (fun x hx => hk x (List.mem_cons_of_mem _ hx)) s1 (j ++ [callOf c]) h2]
    simp

theorem submitLoop_fail {σ : Type} (p : UnboundProvider σ) (hdry : p.dryRun = false)
    (pre : List Call) (f : Call) (post : List Call) (sk sk1 : σ) (err : Error)
    (hfail : execCall p.client f sk = some (some err, sk1))
    (changes : List UnboundChange) (hk : ∀ c ∈ changes, KnownAction c) (s : σ) (j : List Call)
    (hsplit : changes.map callOf = pre ++ f :: post)
    (hrun : runOk p.client pre s = some sk) :
    submitLoop (withJournal p) changes (s, j) = some (some err, (sk1, j ++ pre ++ [f])) := by
  induction pre generalizing changes s j with
  | nil =>
    cases changes with
    | nil => simp at hsplit
    | cons c cs =>
      simp only [List.map_cons, List.nil_append, List.cons.injEq] at hsplit
      simp only [runOk, Option.some.injEq] at hrun
      subst hrun
      rw [submitLoop_step p hdry c (hk c (List.mem_cons_self _ _)), hsplit.1, hfail]
      simp
  | cons a pre ih =>
    cases changes with
    | nil => simp at hsplit
    | cons c cs =>
      simp only [List.map_cons, List.cons_append, List.cons.injEq] at hsplit
      obtain ⟨s1, h1, h2⟩ := runOk_cons _ _ _ _ _ hrun
      rw [submitLoop_step p hdry c (hk c (List.mem_cons_self _ _)), hsplit.1, h1]
      simp only
      rw [ih cs (fun x hx => hk x (List.mem_cons_of_mem _ hx)) s1 (j ++ [a]) hsplit.2 h2]
      simp

theorem submitLoop_dryRun {σ : Type} (p : UnboundProvider σ) (hdry : p.dryRun = true)
    (changes : List UnboundChange) (s : σ) :
    submitLoop p changes s = some (none, s) := by
  induction changes with
  | nil => simp [submitLoop]
  | cons c cs ih => simp [submitLoop, hdry, ih]

theorem runOk_total {σ : Type} (c : Client σ)
    (hadd : ∀ rr s, ∃ s1, c.AddLocalData rr s = some (none, s1))
    (hrem : ∀ rr s, ∃ s1, c.RemoveLocalData rr s = some (none, s1))
    (changes : List UnboundChange) (s : σ) :
    ∃ t, runOk c (changes.map callOf) s = some t := by
  induction changes generalizing s with
  | nil => exact ⟨s, rfl⟩
  | cons x xs ih =>
    have hx : ∃ s1, execCall c (callOf x) s = some (none, s1) := by
      unfold callOf
      split
      · exact hadd _ _
      · exact hrem _ _
    obtain ⟨s1, h1⟩ := hx
    obtain ⟨t, ht⟩ := ih s1
    exact ⟨t, by simp [runOk, h1, ht]⟩

theorem combinedChanges_withJournal {σ : Type} (lib : Library) (p : UnboundProvider σ)
    (changes : Changes) :
    combinedChanges lib (withJournal p) changes = combinedChanges lib p changes := rfl

theorem withJournal_dryRun {σ : Type} (p : UnboundProvider σ) :
    (withJournal p).dryRun = p.dryRun := rfl

theorem withJournal_add {σ : Type} (p : UnboundProvider σ) (rr : RR) (s : σ) (j : List Call) :
    (withJournal p).client.AddLocalData rr (s, j) =
      (p.client.AddLocalData rr s).map (fun r => (r.1, (r.2, j ++ [Call.add rr]))) := rfl

theorem withJournal_remove {σ : Type} (p : UnboundProvider σ) (rr : RR) (s : σ) (j : List Call) :
    (withJournal p).client.RemoveLocalData rr (s, j) =
      (p.client.RemoveLocalData rr s).map (fun r => (r.1, (r.2, j ++ [Call.remove rr]))) := rfl

theorem submitLoop_withJournal {σ : Type} (p : UnboundProvider σ)
    (changes : List UnboundChange) (s : σ) (j : List Call) :
    submitLoop p changes s =
      (submitLoop (withJournal p) changes (s, j)).map (fun r => (r.1, r.2.1)) := by
  induction changes generalizing s j with
  | nil => simp [submitLoop]
  | cons c cs ih =>
    simp only [submitLoop, withJournal_dryRun, withJournal_add, withJournal_remove]
    by_cases hdry : p.dryRun = true
    · simp only [hdry, if_true]
      exact ih s j
    · simp only [hdry]
      by_cases hc : c.Action = actionCreate
      · simp only [hc, if_true]
        cases h : p.client.AddLocalData c.RR s with
        | none => simp
        | some r =>
          obtain ⟨e, s1⟩ := r
          cases e with
          | none => simpa using ih s1 _
          | some err => simp
      · by_cases hr : c.Action = actionRemove
        · have hne : ¬ actionRemove = actionCreate := by decide
          simp only [hr, hne, if_true, if_false]
          cases h : p.client.RemoveLocalData c.RR s with
          | none => simp
          | some r =>
            obtain ⟨e, s1⟩ := r
            cases e with
            | none => simpa using ih s1 _
            | some err => simp
        · simp only [hc, hr, if_false]
          exact ih s j

/-- The journal does not change what `ApplyChanges` does to the client. -/
theorem ApplyChanges_withJournal {σ : Type} (lib : Library) (p : UnboundProvider σ)
    (changes : Changes) (s : σ) (j : List Call) :
    ApplyChanges lib p changes s =
      (ApplyChanges lib (withJournal p) changes (s, j)).map (fun r => (r.1, r.2.1)) := by
  simp only [ApplyChanges, submitChanges_eq_submitLoop, combinedChanges_withJournal]
  exact submitLoop_withJournal p _ s j

theorem combinedChanges_eq_nil_iff {σ : Type} (lib : Library) (p : UnboundProvider σ)
    (changes : Changes) :
    combinedChanges lib p changes = [] ↔
      ∀ e ∈ changes.Create ++ changes.UpdateOld ++ changes.UpdateNew ++ changes.Delete,
        e.Targets = [] := by
  simp only [combinedChanges, newUnboundChange_eq, List.nil_append, List.append_eq_nil,
    List.flatMap_eq_nil_iff, List.map_eq_nil_iff, expand, List.mem_append]
  constructor
  · rintro ⟨⟨⟨h1, h2⟩, h3⟩, h4⟩ e (((he | he) | he) | he)
    · exact h1 e he
    · exact h2 e he
    · exact h3 e he
    · exact h4 e he
  · intro h
    exact ⟨⟨⟨fun e he => h e (Or.inl (Or.inl (Or.inl he))),
      fun e he => h e (Or.inl (Or.inl (Or.inr he)))⟩,
      fun e he => h e (Or.inl (Or.inr he))⟩, fun e he => h e (Or.inr he)⟩

/-! ## ApplyChanges -/

/-- C1. With dry-run disabled and a client whose add and remove calls always
return a nil error, `ApplyChanges` returns a nil error and the calls it makes on
the client are exactly: one add per record expanded from `Create`, then one
remove per record expanded from `UpdateOld`, then one add per record expanded
from `UpdateNew`, then one remove per record expanded from `Delete`, each group
in endpoint order and, inside an endpoint, in target order. The client is left
in the state these calls lead to. -/
theorem ApplyChanges_call_order {σ : Type} (lib : Library) (p : UnboundProvider σ)
    (changes : Changes) (s : σ) (j : List Call)
    (hdry : p.dryRun = false)
    (hadd : ∀ rr s1, ∃ s2, p.client.AddLocalData rr s1 = some (none, s2))
    (hrem : ∀ rr s1, ∃ s2, p.client.RemoveLocalData rr s1 = some (none, s2)) :
    ∃ t,
      ApplyChanges lib (withJournal p) changes (s, j) =
        some (none, (t, j ++
          ((changes.Create.flatMap (expand lib p.defaultTTL)).map Call.add
            ++ (changes.UpdateOld.flatMap (expand lib p.defaultTTL)).map Call.remove
            ++ (changes.UpdateNew.flatMap (expand lib p.defaultTTL)).map Call.add
            ++ (changes.Delete.flatMap (expand lib p.defaultTTL)).map Call.remove)))
      ∧ runOk p.client (plannedCalls lib p.defaultTTL changes) s = some t := by
  obtain ⟨t, ht⟩ := runOk_total p.client hadd hrem (combinedChanges lib p changes) s
  refine ⟨t, ?_, ?_⟩
  · simp only [ApplyChanges, submitChanges_eq_submitLoop, combinedChanges_withJournal]
    rw [submitLoop_ok p hdry _ (knownAction_combinedChanges lib p changes) s t j ht,
      map_callOf_combinedChanges]
    rfl
  · rw [← map_callOf_combinedChanges]
    exact ht

theorem ApplyChanges_call_order_witness :
    (openProvider storeClient false 300).dryRun = false
    ∧ (∀ rr s1, ∃ s2, (openProvider storeClient false 300).client.AddLocalData rr s1
        = some (none, s2))
    ∧ (∀ rr s1, ∃ s2, (openProvider storeClient false 300).client.RemoveLocalData rr s1
        = some (none, s2))
    ∧ ∃ t,
      ApplyChanges plainLibrary (withJournal (openProvider storeClient false 300)) sampleChanges
          ([], []) =
        some (none, (t, [] ++
          ((sampleChanges.Create.flatMap
              (expand plainLibrary (openProvider storeClient false 300).defaultTTL)).map Call.add
            ++ (sampleChanges.UpdateOld.flatMap
              (expand plainLibrary (openProvider storeClient false 300).defaultTTL)).map Call.remove
            ++ (sampleChanges.UpdateNew.flatMap
              (expand plainLibrary (openProvider storeClient false 300).defaultTTL)).map Call.add
            ++ (sampleChanges.Delete.flatMap
              (expand plainLibrary (openProvider storeClient false 300).defaultTTL)).map
                Call.remove)))
      ∧ runOk (openProvider storeClient false 300).client
          (plannedCalls plainLibrary (openProvider storeClient false 300).defaultTTL sampleChanges)
          [] = some t :=
  ⟨rfl, fun _ _ => ⟨_, rfl⟩, fun _ _ => ⟨_, rfl⟩,
    ApplyChanges_call_order plainLibrary (openProvider storeClient false 300) sampleChanges [] []
      rfl (fun _ _ => ⟨_, rfl⟩) (fun _ _ => ⟨_, rfl⟩)⟩

/-- C2. With dry-run disabled, when the calls of the expanded sequence before
`f` all return a nil error (`pre`, leading from `s` to `sk`) and the call `f`
returns the error `err` (leaving the client in `sk1`), `ApplyChanges` returns
`err`, the calls it made are exactly `pre` followed by `f`, none of the calls
`post` after `f` is made, and the client is left in `sk1`: what the earlier
calls did is not undone. -/
theorem ApplyChanges_first_failure {σ : Type} (lib : Library) (p : UnboundProvider σ)
    (changes : Changes) (s : σ) (j : List Call)
    (hdry : p.dryRun = false)
    (pre : List Call) (f : Call) (post : List Call)
    (hsplit : plannedCalls lib p.defaultTTL changes = pre ++ f :: post)
    (sk sk1 : σ) (err : Error)
    (hpre : runOk p.client pre s = some sk)
    (hfail : execCall p.client f sk = some (some err, sk1)) :
    ApplyChanges lib (withJournal p) changes (s, j) = some (some err, (sk1, j ++ pre ++ [f]))
      ∧ ApplyChanges lib p changes s = some (some err, sk1) := by
  have h : ApplyChanges lib (withJournal p) changes (s, j)
      = some (some err, (sk1, j ++ pre ++ [f])) := by
    simp only [ApplyChanges, submitChanges_eq_submitLoop, combinedChanges_withJournal]
    exact submitLoop_fail p hdry pre f post sk sk1 err hfail _
      (knownAction_combinedChanges lib p changes) s j
      ((map_callOf_combinedChanges lib p changes).trans hsplit) hpre
  refine ⟨h, ?_⟩
  rw [ApplyChanges_withJournal lib p changes s j, h]
  rfl

theorem ApplyChanges_first_failure_witness :
    (openProvider (refusingClient "b.lan") false 300).dryRun = false
    ∧ plannedCalls plainLibrary (openProvider (refusingClient "b.lan") false 300).defaultTTL
          sampleChanges =
        [Call.add (recordA "a.lan" "10.0.0.1" 300), Call.add (recordA "a.lan" "10.0.0.2" 300)]
          ++ Call.add (recordA "b.lan" "10.0.0.3" 60)
            :: [Call.remove (recordA "c.lan" "10.0.0.4" 300),
                Call.add (recordA "c.lan" "10.0.0.5" 300),
                Call.remove (recordA "d.lan" "10.0.0.6" 300)]
    ∧ runOk (openProvider (refusingClient "b.lan") false 300).client
          [Call.add (recordA "a.lan" "10.0.0.1" 300), Call.add (recordA "a.lan" "10.0.0.2" 300)]
          [] =
        some [recordA "a.lan" "10.0.0.1" 300, recordA "a.lan" "10.0.0.2" 300]
    ∧ execCall (openProvider (refusingClient "b.lan") false 300).client
          (Call.add (recordA "b.lan" "10.0.0.3" 60))
          [recordA "a.lan" "10.0.0.1" 300, recordA "a.lan" "10.0.0.2" 300] =
        some (some "refused", [recordA "a.lan" "10.0.0.1" 300, recordA "a.lan" "10.0.0.2" 300])
    ∧ (ApplyChanges plainLibrary (withJournal (openProvider (refusingClient "b.lan") false 300))
          sampleChanges ([], []) =
        some (some "refused",
          ([recordA "a.lan" "10.0.0.1" 300, recordA "a.lan" "10.0.0.2" 300],
            [] ++ [Call.add (recordA "a.lan" "10.0.0.1" 300),
                   Call.add (recordA "a.lan" "10.0.0.2" 300)]
              ++ [Call.add (recordA "b.lan" "10.0.0.3" 60)]))
      ∧ ApplyChanges plainLibrary (openProvider (refusingClient "b.lan") false 300)
          sampleChanges [] =
        some (some "refused", [recordA "a.lan" "10.0.0.1" 300, recordA "a.lan" "10.0.0.2" 300])) :=
  ⟨rfl, by decide, by decide, by decide,
    ApplyChanges_first_failure plainLibrary (openProvider (refusingClient "b.lan") false 300)
      sampleChanges [] [] rfl
      [Call.add (recordA "a.lan" "10.0.0.1" 300), Call.add (recordA "a.lan" "10.0.0.2" 300)]
      (Call.add (recordA "b.lan" "10.0.0.3" 60))
      [Call.remove (recordA "c.lan" "10.0.0.4" 300), Call.add (recordA "c.lan" "10.0.0.5" 300),
        Call.remove (recordA "d.lan" "10.0.0.6" 300)]
      (by decide)
      [recordA "a.lan" "10.0.0.1" 300, recordA "a.lan" "10.0.0.2" 300]
      [recordA "a.lan" "10.0.0.1" 300, recordA "a.lan" "10.0.0.2" 300]
      "refused" (by decide) (by decide)⟩

/-- C3. With dry-run enabled, whatever the client does when called,
`ApplyChanges` returns a nil error, makes no call on the client and leaves its
state, hence the records it lists, as they were. -/
theorem ApplyChanges_dryRun {σ : Type} (lib : Library) (p : UnboundProvider σ)
    (changes : Changes) (s : σ) (j : List Call) (hdry : p.dryRun = true) :
    ApplyChanges lib (withJournal p) changes (s, j) = some (none, (s, j))
      ∧ ApplyChanges lib p changes s = some (none, s) := by
  constructor
  · simp only [ApplyChanges, submitChanges_eq_submitLoop]
    exact submitLoop_dryRun (withJournal p) hdry _ _
  · simp only [ApplyChanges, submitChanges_eq_submitLoop]
    exact submitLoop_dryRun p hdry _ _

theorem ApplyChanges_dryRun_witness :
    (openProvider (refusingClient "a.lan") true 300).dryRun = true
    ∧ (ApplyChanges plainLibrary (withJournal (openProvider (refusingClient "a.lan") true 300))
          sampleChanges ([recordA "x.lan" "10.0.0.9" 60], []) =
        some (none, ([recordA "x.lan" "10.0.0.9" 60], []))
      ∧ ApplyChanges plainLibrary (openProvider (refusingClient "a.lan") true 300)
          sampleChanges [recordA "x.lan" "10.0.0.9" 60] =
        some (none, [recordA "x.lan" "10.0.0.9" 60])) :=
  ⟨rfl, ApplyChanges_dryRun plainLibrary (openProvider (refusingClient "a.lan") true 300)
    sampleChanges [recordA "x.lan" "10.0.0.9" 60] [] rfl⟩

/-- C4. The expanded sequence of a change set is empty exactly when every
endpoint of its four lists has no target (the empty change set among them);
for such a change set `ApplyChanges` makes no call on the client, leaves its
state alone and returns a nil error, whatever the dry-run flag is. -/
theorem ApplyChanges_nothing_to_do {σ : Type} (lib : Library) (p : UnboundProvider σ)
    (changes : Changes) (s : σ) (j : List Call)
    (hempty : combinedChanges lib p changes = [] ∨
      ∀ e ∈ changes.Create ++ changes.UpdateOld ++ changes.UpdateNew ++ changes.Delete,
        e.Targets = []) :
    (combinedChanges lib p changes = [] ∧
      ∀ e ∈ changes.Create ++ changes.UpdateOld ++ changes.UpdateNew ++ changes.Delete,
        e.Targets = [])
      ∧ ApplyChanges lib (withJournal p) changes (s, j) = some (none, (s, j))
      ∧ ApplyChanges lib p changes s = some (none, s) := by
  have h : combinedChanges lib p changes = [] := by
    rcases hempty with h | h
    · exact h
    · exact (combinedChanges_eq_nil_iff lib p changes).2 h
  refine ⟨⟨h, (combinedChanges_eq_nil_iff lib p changes).1 h⟩, ?_, ?_⟩
  · simp [ApplyChanges, combinedChanges_withJournal, h, submitChanges]
  · simp [ApplyChanges, h, submitChanges]

theorem ApplyChanges_nothing_to_do_witness :
    (combinedChanges plainLibrary (openProvider (refusingClient "a.lan") false 300)
          hollowChanges = [] ∨
        ∀ e ∈ hollowChanges.Create ++ hollowChanges.UpdateOld ++ hollowChanges.UpdateNew
            ++ hollowChanges.Delete, e.Targets = [])
    ∧ ((combinedChanges plainLibrary (openProvider (refusingClient "a.lan") false 300)
          hollowChanges = [] ∧
        ∀ e ∈ hollowChanges.Create ++ hollowChanges.UpdateOld ++ hollowChanges.UpdateNew
            ++ hollowChanges.Delete, e.Targets = [])
      ∧ ApplyChanges plainLibrary (withJournal (openProvider (refusingClient "a.lan") false 300))
          hollowChanges ([recordA "x.lan" "10.0.0.9" 60], []) =
        some (none, ([recordA "x.lan" "10.0.0.9" 60], []))
      ∧ ApplyChanges plainLibrary (openProvider (refusingClient "a.lan") false 300)
          hollowChanges [recordA "x.lan" "10.0.0.9" 60] =
        some (none, [recordA "x.lan" "10.0.0.9" 60])) :=
  ⟨Or.inr (by decide),
    ApplyChanges_nothing_to_do plainLibrary (openProvider (refusingClient "a.lan") false 300)
      hollowChanges [recordA "x.lan" "10.0.0.9" 60] [] (Or.inr (by decide))⟩

/-! ## newUnboundChange -/

/-- C5. For every action, endpoint `e` and provider (hence default TTL),
`newUnboundChange` on `[e]` returns exactly one change per target of `e`; the
`i`-th change carries the action and the record with the name and type of `e`
and the `i`-th target as value, and all of them have one and the same TTL. On a
list of endpoints the result is the concatenation, in input order, of the
results for the single endpoints. -/
theorem newUnboundChange_expansion {σ : Type} (lib : Library) (p : UnboundProvider σ)
    (action : String) (e : Endpoint) (endpoints : List Endpoint) :
    (newUnboundChange lib p action [e]).length = e.Targets.length
      ∧ (∃ ttl : Int,
          newUnboundChange lib p action [e] =
              e.Targets.map (fun t =>
                { Action := action,
                  RR := { Name := e.DNSName, TTL := ttl, Type_ := e.RecordType, Value := t } })
          ∧ ∀ i : Nat,
              (newUnboundChange lib p action [e])[i]? =
                (e.Targets[i]?).map (fun t =>
                  { Action := action,
                    RR := { Name := e.DNSName, TTL := ttl, Type_ := e.RecordType, Value := t } }))
      ∧ newUnboundChange lib p action endpoints =
          endpoints.flatMap (fun e1 => newUnboundChange lib p action [e1]) := by
  refine ⟨?_, ⟨recordTTL lib p.defaultTTL e, newUnboundChange_single lib p action e, ?_⟩, ?_⟩
  · simp [newUnboundChange_single]
  · intro i
    simp [newUnboundChange_single]
  · rw [newUnboundChange_eq]
    congr 1
    funext e1
    rw [newUnboundChange_eq]
    simp

/-- C6. Every record that `newUnboundChange` produces for an endpoint `e` has
the TTL of `e` when that TTL is configured and the default TTL of the provider
otherwise, whatever the action is: removals follow the same rule as upserts. -/
theorem newUnboundChange_ttl {σ : Type} (lib : Library) (p : UnboundProvider σ)
    (action : String) (e : Endpoint) :
    (newUnboundChange lib p action [e]).map (fun c => c.RR.TTL) =
      List.replicate e.Targets.length
        (if lib.IsConfigured e.RecordTTL = true then e.RecordTTL else p.defaultTTL) := by
  rw [newUnboundChange_single, List.map_map, List.eq_replicate_iff]
  refine ⟨by simp, ?_⟩
  intro b hb
  simp only [List.mem_map, Function.comp_apply] at hb
  obtain ⟨_, _, rfl⟩ := hb
  rfl

/-! ## Records -/

theorem foldl_keep_eq_filter_map {α β : Type} (keep : α → Bool) (f : α → β) (l : List α)
    (init : List β) :
    l.foldl (fun acc a => if keep a then acc ++ [f a] else acc) init =
      init ++ (l.filter keep).map f := by
  induction l generalizing init with
  | nil => simp
  | cons a l ih =>
    by_cases h : keep a = true
    · simp [ih, h]
    · simp [ih, h]

theorem Records_eq {σ : Type} (lib : Library) (p : UnboundProvider σ) (s s1 : σ)
    (records : List RR) (hlist : p.client.LocalData s = some (records, s1)) :
    Records lib p s =
      some (((kept lib p records).map
        (fun r => lib.NewEndpointWithTTL r.Name r.Type_ r.TTL [r.Value]), none), s1) := by
  have h := foldl_keep_eq_filter_map
    (fun r : RR => lib.SupportedRecordType r.Type_ && p.domainFilter r.Name)
    (fun r : RR => lib.NewEndpointWithTTL r.Name r.Type_ r.TTL [r.Value]) records []
  simp only [List.nil_append] at h
  simp only [Records, hlist, kept, ← h]
  congr 4
  funext acc r
  cases lib.SupportedRecordType r.Type_ <;> cases p.domainFilter r.Name <;> simp

theorem mock_submit_creates (filter : String → Bool) (d : Int) (rrs : List RR) (s : List RR) :
    submitLoop { client := mockClient, domainFilter := filter, dryRun := false, defaultTTL := d }
        (rrs.map (fun rr => { Action := actionCreate, RR := rr })) s =
      some (none, s ++ rrs) := by
  induction rrs generalizing s with
  | nil => simp [submitLoop]
  | cons rr rrs ih =>
    simp only [List.map_cons, submitLoop, mockClient]
    simpa using ih (s ++ [rr])

theorem kept_expand {σ : Type} (lib : Library) (p : UnboundProvider σ) (d : Int) (E : Endpoint)
    (hsup : lib.SupportedRecordType E.RecordType = true)
    (hmatch : p.domainFilter E.DNSName = true) :
    kept lib p (expand lib d E) = expand lib d E := by
  unfold kept
  rw [List.filter_eq_self]
  intro r hr
  simp only [expand, List.mem_map] at hr
  obtain ⟨_, _, rfl⟩ := hr
  simp [hsup, hmatch]

theorem NewEndpointWithTTL_fit (dnsName recordType : String) (ttl : Int)
    (targets : List String) (hfit : LabelsFit dnsName = true) :
    NewEndpointWithTTL dnsName recordType ttl targets =
      some { DNSName := TrimSuffix dnsName ".",
             Targets := targets.map (fun target => TrimSuffix target "."),
             RecordType := recordType, SetIdentifier := "", RecordTTL := ttl, Labels := [],
             ProviderSpecific := [] } := by
  simp [NewEndpointWithTTL, hfit]

theorem TrimSuffix_of_not_hasSuffix (s suffix : String) (h : HasSuffix s suffix = false) :
    TrimSuffix s suffix = s := by
  simp [TrimSuffix, h]

/-- C7, as the code has it. When the client lists `records`, `Records` returns
a nil error and exactly one entry, in listing order and without merging, for
each record of a supported type whose name passes the domain filter: what
`NewEndpointWithTTL` returns for the name, type, TTL and single value of the
record. For a record whose name has no label longer than 63 bytes this entry
is the endpoint with the name of the record without one trailing dot, its
type, its TTL and, as only target, its value without one trailing dot. -/
theorem Records_listing {σ : Type} (isConfigured : Int → Bool) (supported : String → Bool)
    (p : UnboundProvider σ) (s s1 : σ) (records : List RR)
    (hlist : p.client.LocalData s = some (records, s1)) :
    ∃ endpoints : List (Option Endpoint),
      Records (externalDNS isConfigured supported) p s = some ((endpoints, none), s1)
      ∧ endpoints.length =
          (records.filter (fun r => supported r.Type_ && p.domainFilter r.Name)).length
      ∧ endpoints =
          (records.filter (fun r => supported r.Type_ && p.domainFilter r.Name)).map
            (fun r => NewEndpointWithTTL r.Name r.Type_ r.TTL [r.Value])
      ∧ ∀ (i : Nat) (r : RR),
          (records.filter (fun r => supported r.Type_ && p.domainFilter r.Name))[i]? = some r →
          LabelsFit r.Name = true →
          endpoints[i]? =
            some (some { DNSName := TrimSuffix r.Name ".", Targets := [TrimSuffix r.Value "."],
                         RecordType := r.Type_, SetIdentifier := "", RecordTTL := r.TTL,
                         Labels := [], ProviderSpecific := [] }) := by
  refine ⟨_, Records_eq (externalDNS isConfigured supported) p s s1 records hlist, ?_, rfl, ?_⟩
  · simp [kept, externalDNS]
  · intro i r hi hfit
    simp only [kept, externalDNS, List.getElem?_map, hi, Option.map_some']
    rw [NewEndpointWithTTL_fit r.Name r.Type_ r.TTL [r.Value] hfit]
    rfl

theorem Records_listing_witness :
    (suffixProvider storeClient "example.com." false 300).client.LocalData dottedListing =
        some (dottedListing, dottedListing)
    ∧ ∃ endpoints : List (Option Endpoint),
      Records (externalDNS plainLibrary.IsConfigured plainLibrary.SupportedRecordType)
          (suffixProvider storeClient "example.com." false 300) dottedListing =
        some ((endpoints, none), dottedListing)
      ∧ endpoints.length =
          (dottedListing.filter (fun r => plainLibrary.SupportedRecordType r.Type_ &&
            (suffixProvider storeClient "example.com." false 300).domainFilter r.Name)).length
      ∧ endpoints =
          (dottedListing.filter (fun r => plainLibrary.SupportedRecordType r.Type_ &&
            (suffixProvider storeClient "example.com." false 300).domainFilter r.Name)).map
            (fun r => NewEndpointWithTTL r.Name r.Type_ r.TTL [r.Value])
      ∧ ∀ (i : Nat) (r : RR),
          (dottedListing.filter (fun r => plainLibrary.SupportedRecordType r.Type_ &&
            (suffixProvider storeClient "example.com." false 300).domainFilter r.Name))[i]?
            = some r →
          LabelsFit r.Name = true →
          endpoints[i]? =
            some (some { DNSName := TrimSuffix r.Name ".", Targets := [TrimSuffix r.Value "."],
                         RecordType := r.Type_, SetIdentifier := "", RecordTTL := r.TTL,
                         Labels := [], ProviderSpecific := [] }) :=
  ⟨rfl,
    Records_listing plainLibrary.IsConfigured plainLibrary.SupportedRecordType
      (suffixProvider storeClient "example.com." false 300) dottedListing dottedListing
      dottedListing rfl⟩

/-- C7 fails as stated: the record named `test.lan.` is listed as an endpoint
named `test.lan`, and for a record whose name has a label of 64 bytes the
entry is the nil pointer. -/
theorem Records_trims_trailing_dot :
    (∃ e : Endpoint,
      Records plainLibrary (openProvider storeClient false 300)
          [{ Name := "test.lan.", TTL := 300, Type_ := "A", Value := "192.168.1.1" }] =
        some (([some e], none),
          [{ Name := "test.lan.", TTL := 300, Type_ := "A", Value := "192.168.1.1" }])
      ∧ e.DNSName = "test.lan" ∧ e.DNSName ≠ "test.lan.")
    ∧ Records plainLibrary (openProvider storeClient false 300)
        [{ Name := "aaaaaaaaaaaaaaaaaaaaaaaaaaaaaaaaaaaaaaaaaaaaaaaaaaaaaaaaaaaaaaaa.lan",
           TTL := 300, Type_ := "A", Value := "192.168.1.1" }] =
      some (([none], none),
        [{ Name := "aaaaaaaaaaaaaaaaaaaaaaaaaaaaaaaaaaaaaaaaaaaaaaaaaaaaaaaaaaaaaaaa.lan",
           TTL := 300, Type_ := "A", Value := "192.168.1.1" }]) :=
  ⟨⟨endpointA "test.lan" ["192.168.1.1"] 300, by decide, by decide, by decide⟩, by decide⟩

/-- C8, as the code has it. Round trip on the mock client of the tests,
starting from the empty store, for an endpoint `E` of a supported type, with a
configured TTL, a name passing the domain filter and no label longer than 63
bytes: `ApplyChanges` with `Create = [E]`, dry-run disabled, returns a nil
error, and `Records` on the resulting store returns, with a nil error, one
endpoint per target of `E`, in target order, each with the type and TTL of
`E`, the name of `E` without one trailing dot and, as only target, that target
without one trailing dot; so each has the very name of `E` and that very
target when neither ends with a dot. -/
theorem create_then_Records (isConfigured : Int → Bool) (supported : String → Bool)
    (E : Endpoint) (filter : String → Bool) (d : Int)
    (hsup : supported E.RecordType = true)
    (hconf : isConfigured E.RecordTTL = true)
    (hmatch : filter E.DNSName = true)
    (hfit : LabelsFit E.DNSName = true) :
    ∃ (store : List RR) (endpoints : List (Option Endpoint)),
      ApplyChanges (externalDNS isConfigured supported)
          { client := mockClient, domainFilter := filter, dryRun := false, defaultTTL := d }
          { Create := [E], UpdateOld := [], UpdateNew := [], Delete := [] } [] =
        some (none, store)
      ∧ Records (externalDNS isConfigured supported)
          { client := mockClient, domainFilter := filter, dryRun := false, defaultTTL := d }
          store =
        some ((endpoints, none), store)
      ∧ endpoints =
          E.Targets.map (fun t =>
            some { DNSName := TrimSuffix E.DNSName ".", Targets := [TrimSuffix t "."],
                   RecordType := E.RecordType, SetIdentifier := "", RecordTTL := E.RecordTTL,
                   Labels := [], ProviderSpecific := [] })
      ∧ (HasSuffix E.DNSName "." = false → (∀ t ∈ E.Targets, HasSuffix t "." = false) →
          endpoints =
            E.Targets.map (fun t =>
              some { DNSName := E.DNSName, Targets := [t], RecordType := E.RecordType,
                     SetIdentifier := "", RecordTTL := E.RecordTTL, Labels := [],
                     ProviderSpecific := [] })) := by
  have hmap : (kept (externalDNS isConfigured supported)
        { client := mockClient, domainFilter := filter, dryRun := false, defaultTTL := d }
        (expand (externalDNS isConfigured supported) d E)).map
        (fun r => (externalDNS isConfigured supported).NewEndpointWithTTL
          r.Name r.Type_ r.TTL [r.Value]) =
      E.Targets.map (fun t =>
        some { DNSName := TrimSuffix E.DNSName ".", Targets := [TrimSuffix t "."],
               RecordType := E.RecordType, SetIdentifier := "", RecordTTL := E.RecordTTL,
               Labels := [], ProviderSpecific := [] }) := by
    rw [kept_expand (externalDNS isConfigured supported) _ d E hsup hmatch]
    simp only [expand, List.map_map]
    apply List.map_congr_left
    intro t _
    simp only [Function.comp_apply, externalDNS, recordTTL, hconf, if_true]
    rw [NewEndpointWithTTL_fit E.DNSName E.RecordType E.RecordTTL [t] hfit]
    rfl
  refine ⟨expand (externalDNS isConfigured supported) d E, _, ?_,
    Records_eq (externalDNS isConfigured supported) _ _ _
      (expand (externalDNS isConfigured supported) d E) rfl, hmap, ?_⟩
  · simp only [ApplyChanges, submitChanges_eq_submitLoop, combinedChanges, newUnboundChange_eq,
      List.flatMap_nil, List.append_nil, List.nil_append, List.flatMap_cons]
    simpa using mock_submit_creates filter d (expand (externalDNS isConfigured supported) d E) []
  · intro hname htargets
    rw [hmap]
    apply List.map_congr_left
    intro t ht
    rw [TrimSuffix_of_not_hasSuffix _ _ hname, TrimSuffix_of_not_hasSuffix _ _ (htargets t ht)]

theorem create_then_Records_witness :
    plainLibrary.SupportedRecordType
        (endpointA "test.lan." ["192.168.1.1", "192.168.1.2."] 300).RecordType = true
    ∧ plainLibrary.IsConfigured
        (endpointA "test.lan." ["192.168.1.1", "192.168.1.2."] 300).RecordTTL = true
    ∧ (fun name => HasSuffix name ".lan.")
        (endpointA "test.lan." ["192.168.1.1", "192.168.1.2."] 300).DNSName = true
    ∧ LabelsFit (endpointA "test.lan." ["192.168.1.1", "192.168.1.2."] 300).DNSName = true
    ∧ ∃ (store : List RR) (endpoints : List (Option Endpoint)),
      ApplyChanges (externalDNS plainLibrary.IsConfigured plainLibrary.SupportedRecordType)
          { client := mockClient, domainFilter := fun name => HasSuffix name ".lan.",
            dryRun := false, defaultTTL := 7200 }
          { Create := [endpointA "test.lan." ["192.168.1.1", "192.168.1.2."] 300],
            UpdateOld := [], UpdateNew := [], Delete := [] } [] =
        some (none, store)
      ∧ Records (externalDNS plainLibrary.IsConfigured plainLibrary.SupportedRecordType)
          { client := mockClient, domainFilter := fun name => HasSuffix name ".lan.",
            dryRun := false, defaultTTL := 7200 }
          store =
        some ((endpoints, none), store)
      ∧ endpoints =
          (endpointA "test.lan." ["192.168.1.1", "192.168.1.2."] 300).Targets.map (fun t =>
            some { DNSName :=
                     TrimSuffix (endpointA "test.lan." ["192.168.1.1", "192.168.1.2."] 300).DNSName
                       ".",
                   Targets := [TrimSuffix t "."],
                   RecordType :=
                     (endpointA "test.lan." ["192.168.1.1", "192.168.1.2."] 300).RecordType,
                   SetIdentifier := "",
                   RecordTTL :=
                     (endpointA "test.lan." ["192.168.1.1", "192.168.1.2."] 300).RecordTTL,
                   Labels := [], ProviderSpecific := [] })
      ∧ (HasSuffix (endpointA "test.lan." ["192.168.1.1", "192.168.1.2."] 300).DNSName "."
            = false →
          (∀ t ∈ (endpointA "test.lan." ["192.168.1.1", "192.168.1.2."] 300).Targets,
            HasSuffix t "." = false) →
          endpoints =
            (endpointA "test.lan." ["192.168.1.1", "192.168.1.2."] 300).Targets.map (fun t =>
              some { DNSName :=
                       (endpointA "test.lan." ["192.168.1.1", "192.168.1.2."] 300).DNSName,
                     Targets := [t],
                     RecordType :=
                       (endpointA "test.lan." ["192.168.1.1", "192.168.1.2."] 300).RecordType,
                     SetIdentifier := "",
                     RecordTTL :=
                       (endpointA "test.lan." ["192.168.1.1", "192.168.1.2."] 300).RecordTTL,
                     Labels := [], ProviderSpecific := [] })) :=
  ⟨by decide, by decide, by decide, by decide,
    create_then_Records plainLibrary.IsConfigured plainLibrary.SupportedRecordType
      (endpointA "test.lan." ["192.168.1.1", "192.168.1.2."] 300)
      (fun name => HasSuffix name ".lan.") 7200 (by decide) (by decide) (by decide) (by decide)⟩

/-- C8 fails as stated: after the creation of the endpoint `test.lan.`, of a
supported type, with a configured TTL and a name passing the domain filter,
`Records` on the mock client returns an endpoint named `test.lan`. -/
theorem create_then_Records_loses_dot :
    plainLibrary.SupportedRecordType (endpointA "test.lan." ["192.168.1.1"] 300).RecordType = true
    ∧ plainLibrary.IsConfigured (endpointA "test.lan." ["192.168.1.1"] 300).RecordTTL = true
    ∧ ApplyChanges plainLibrary (openProvider mockClient false 7200)
        { Create := [endpointA "test.lan." ["192.168.1.1"] 300], UpdateOld := [],
          UpdateNew := [], Delete := [] } [] =
      some (none, [recordA "test.lan." "192.168.1.1" 300])
    ∧ Records plainLibrary (openProvider mockClient false 7200)
        [recordA "test.lan." "192.168.1.1" 300] =
      some (([some (endpointA "test.lan" ["192.168.1.1"] 300)], none),
        [recordA "test.lan." "192.168.1.1" 300])
    ∧ (endpointA "test.lan" ["192.168.1.1"] 300).DNSName ≠
        (endpointA "test.lan." ["192.168.1.1"] 300).DNSName := by
  decide

/-! ## AdjustEndpoints -/

theorem hasSuffix_append_dot (s : String) : HasSuffix (s ++ ".") "." = true := by
  have h1 : (s ++ ".").data = s.data ++ ['.'] := String.data_append s "."
  have h2 : (s ++ ".").length = s.data.length + 1 := by
    show (s ++ ".").data.length = _
    rw [h1]
    simp
  have h3 : (".").length = 1 := rfl
  have h4 : (".").data = ['.'] := rfl
  unfold HasSuffix
  rw [h2, h3, h1, h4]
  simp

theorem dotted_dotted (e : Endpoint) : dotted (dotted e) = dotted e := by
  unfold dotted
  by_cases h : HasSuffix e.DNSName "." = true
  · simp [h]
  · simp [h, hasSuffix_append_dot]

theorem adjust_foldl (endpoints : List Ptr) (out : List Ptr) (g : Heap) :
    endpoints.foldl (fun (acc : List Ptr × Heap) (ep : Ptr) =>
      ((acc.1 ++ [ep],
        if !HasSuffix (acc.2 ep).DNSName "." then
          Function.update acc.2 ep { acc.2 ep with DNSName := (acc.2 ep).DNSName ++ "." }
        else acc.2) : List Ptr × Heap)) (out, g)
      = (out ++ endpoints, fun ep => if ep ∈ endpoints then dotted (g ep) else g ep) := by
  induction endpoints generalizing out g with
  | nil => simp
  | cons a eps ih =>
    have hstep : (if !HasSuffix (g a).DNSName "." then
          Function.update g a { g a with DNSName := (g a).DNSName ++ "." }
        else g) = Function.update g a (dotted (g a)) := by
      by_cases h : HasSuffix (g a).DNSName "." = true
      · simp [h, dotted]
      · simp [h, dotted]
    simp only [List.foldl_cons, hstep, ih]
    refine Prod.ext (by simp) ?_
    funext ep
    by_cases hep : ep = a
    · subst hep
      by_cases hmem : ep ∈ eps
      · simp [hmem, dotted_dotted]
      · simp [hmem]
    · simp [hep, Function.update_noteq hep]

theorem AdjustEndpoints_eq (endpoints : List Ptr) (h : Heap) :
    AdjustEndpoints endpoints h =
      ((endpoints, none), fun ep => if ep ∈ endpoints then dotted (h ep) else h ep) := by
  unfold AdjustEndpoints
  simp only [adjust_foldl, List.nil_append]

/-- C9. `AdjustEndpoints` returns a nil error and the list of pointers it was
given, unchanged in length and order; the endpoint behind the `i`-th pointer
now has the name it had before the call when that ended with a dot and that
name followed by a dot otherwise, and all its other fields as before the call.
Endpoints that are not in the list are left alone. -/
theorem AdjustEndpoints_spec (endpoints : List Ptr) (h : Heap) :
    (AdjustEndpoints endpoints h).1 = (endpoints, none)
      ∧ endpoints.map (AdjustEndpoints endpoints h).2 =
          endpoints.map (fun ep =>
            { h ep with
              DNSName := if HasSuffix (h ep).DNSName "." then (h ep).DNSName
                         else (h ep).DNSName ++ "." })
      ∧ (AdjustEndpoints endpoints h).2 =
          fun ep =>
            if ep ∈ endpoints then
              { h ep with
                DNSName := if HasSuffix (h ep).DNSName "." then (h ep).DNSName
                           else (h ep).DNSName ++ "." }
            else h ep := by
  rw [AdjustEndpoints_eq]
  refine ⟨rfl, ?_, rfl⟩
  apply List.map_congr_left
  intro ep hep
  simp [hep, dotted]

/-- C10. `AdjustEndpoints` is idempotent: run again on its own result (the
returned pointers, in the heap it left), it returns the same pointers and
leaves the same heap, so no name gets a second trailing dot. -/
theorem AdjustEndpoints_idempotent (endpoints : List Ptr) (h : Heap) :
    AdjustEndpoints (AdjustEndpoints endpoints h).1.1 (AdjustEndpoints endpoints h).2 =
      AdjustEndpoints endpoints h := by
  simp only [AdjustEndpoints_eq]
  refine Prod.ext rfl ?_
  funext ep
  by_cases hep : ep ∈ endpoints
  · simp [hep, dotted_dotted]
  · simp [hep]

/-! ## GetDomainFilter -/

theorem GetDomainFilter_regex {Regexp F : Type} (fl : FilterLibrary Regexp F)
    (config : Configuration) (hne : config.RegexDomainFilter ≠ "") :
    GetDomainFilter fl config =
      (fl.MustCompile config.RegexDomainFilter).bind (fun inclusion =>
        (fl.MustCompile config.RegexDomainExclusion).map (fun exclusion =>
          fl.NewRegexDomainFilter inclusion exclusion)) := by
  unfold GetDomainFilter
  rw [if_pos hne]
  cases fl.MustCompile config.RegexDomainFilter with
  | none => rfl
  | some inclusion =>
    cases fl.MustCompile config.RegexDomainExclusion with
    | none => rfl
    | some exclusion => rfl

theorem GetDomainFilter_plain {Regexp F : Type} (fl : FilterLibrary Regexp F)
    (config : Configuration) (he : config.RegexDomainFilter = "") :
    GetDomainFilter fl config =
      some (fl.NewDomainFilterWithExclusions config.DomainFilter config.ExcludeDomains) := by
  unfold GetDomainFilter
  simp [he]

theorem plainLists_match_iff (matchString : String → String → Bool)
    (included excluded : List String) (name : String) :
    SpecFilter.Match matchString (SpecFilter.plainLists included excluded) name = true ↔
      ((included = [] ∨ ∃ s ∈ included, HasSuffix name s = true)
        ∧ (excluded = [] ∨ ∀ s ∈ excluded, HasSuffix name s = false)) := by
  simp [SpecFilter.Match, List.isEmpty_iff]

/-- C11. For a configuration with a non-empty `RegexDomainFilter`,
`GetDomainFilter` builds the regex filter from the two compiled patterns (and
panics when one of them does not compile), without looking at the plain lists:
a configuration with the same two patterns gets the same filter, which gives
the same answer on every name, whatever its `DomainFilter` and
`ExcludeDomains` are. -/
theorem GetDomainFilter_regex_precedence {Regexp F : Type} (fl : FilterLibrary Regexp F)
    (c1 c2 : Configuration)
    (hne : c1.RegexDomainFilter ≠ "")
    (hinc : c2.RegexDomainFilter = c1.RegexDomainFilter)
    (hexc : c2.RegexDomainExclusion = c1.RegexDomainExclusion) :
    GetDomainFilter fl c1 =
        (fl.MustCompile c1.RegexDomainFilter).bind (fun inclusion =>
          (fl.MustCompile c1.RegexDomainExclusion).map (fun exclusion =>
            fl.NewRegexDomainFilter inclusion exclusion))
      ∧ GetDomainFilter fl c2 = GetDomainFilter fl c1
      ∧ ∀ name : String,
          (GetDomainFilter fl c2).map (fun f => fl.Match f name) =
            (GetDomainFilter fl c1).map (fun f => fl.Match f name) := by
  have h1 := GetDomainFilter_regex fl c1 hne
  have h2 := GetDomainFilter_regex fl c2 (hinc ▸ hne)
  rw [hinc, hexc] at h2
  refine ⟨h1, h2.trans h1.symm, ?_⟩
  intro name
  rw [h2.trans h1.symm]

theorem GetDomainFilter_regex_precedence_witness :
    (configWith ["example.com"] ["b.lan"] "lan" "test").RegexDomainFilter ≠ ""
    ∧ (configWith [] [] "lan" "test").RegexDomainFilter =
        (configWith ["example.com"] ["b.lan"] "lan" "test").RegexDomainFilter
    ∧ (configWith [] [] "lan" "test").RegexDomainExclusion =
        (configWith ["example.com"] ["b.lan"] "lan" "test").RegexDomainExclusion
    ∧ (GetDomainFilter literalFilterLibrary (configWith ["example.com"] ["b.lan"] "lan" "test") =
        (literalFilterLibrary.MustCompile
            (configWith ["example.com"] ["b.lan"] "lan" "test").RegexDomainFilter).bind
          (fun inclusion =>
            (literalFilterLibrary.MustCompile
                (configWith ["example.com"] ["b.lan"] "lan" "test").RegexDomainExclusion).map
              (fun exclusion => literalFilterLibrary.NewRegexDomainFilter inclusion exclusion))
      ∧ GetDomainFilter literalFilterLibrary (configWith [] [] "lan" "test") =
          GetDomainFilter literalFilterLibrary (configWith ["example.com"] ["b.lan"] "lan" "test")
      ∧ ∀ name : String,
          (GetDomainFilter literalFilterLibrary (configWith [] [] "lan" "test")).map
              (fun f => literalFilterLibrary.Match f name) =
            (GetDomainFilter literalFilterLibrary
                (configWith ["example.com"] ["b.lan"] "lan" "test")).map
              (fun f => literalFilterLibrary.Match f name)) :=
  ⟨by decide, rfl, rfl,
    GetDomainFilter_regex_precedence literalFilterLibrary
      (configWith ["example.com"] ["b.lan"] "lan" "test") (configWith [] [] "lan" "test")
      (by decide) rfl rfl⟩

/-- C12. Against the matcher of the specification: for a configuration with an
empty `RegexDomainFilter`, `GetDomainFilter` builds a filter that matches a
name exactly when (`DomainFilter` is empty or has an entry that is a suffix of
the name) and (`ExcludeDomains` is empty or has no entry that is a suffix of
the name). With `DomainFilter = [s]` and nothing excluded it matches exactly
the names with the suffix `s`; once `s` is among `ExcludeDomains`, no name with
the suffix `s` matches, whatever `DomainFilter` is, and with
`DomainFilter = [s]` no name at all matches. -/
theorem GetDomainFilter_plain_match (compiles : String → Bool)
    (matchString : String → String → Bool) (config : Configuration)
    (he : config.RegexDomainFilter = "") :
    ∃ f : SpecFilter,
      GetDomainFilter (specFilterLibrary compiles matchString) config = some f
      ∧ (∀ name : String,
          (specFilterLibrary compiles matchString).Match f name = true ↔
            ((config.DomainFilter = [] ∨ ∃ s ∈ config.DomainFilter, HasSuffix name s = true)
              ∧ (config.ExcludeDomains = [] ∨
                  ∀ s ∈ config.ExcludeDomains, HasSuffix name s = false)))
      ∧ (∀ (s name : String), config.DomainFilter = [s] → config.ExcludeDomains = [] →
          ((specFilterLibrary compiles matchString).Match f name = true ↔
            HasSuffix name s = true))
      ∧ (∀ (s name : String), s ∈ config.ExcludeDomains → HasSuffix name s = true →
          (specFilterLibrary compiles matchString).Match f name = false)
      ∧ (∀ (s name : String), config.DomainFilter = [s] → s ∈ config.ExcludeDomains →
          (specFilterLibrary compiles matchString).Match f name = false) := by
  refine ⟨_, GetDomainFilter_plain _ config he, ?_, ?_, ?_, ?_⟩
  · intro name
    exact plainLists_match_iff matchString _ _ name
  · intro s name hs hx
    have h := plainLists_match_iff matchString config.DomainFilter config.ExcludeDomains name
    simp only [specFilterLibrary]
    rw [h, hs, hx]
    simp
  · intro s name hs hsuf
    have h := plainLists_match_iff matchString config.DomainFilter config.ExcludeDomains name
    simp only [specFilterLibrary]
    rw [← Bool.not_eq_true, h]
    rintro ⟨_, hx | hx⟩
    · rw [hx] at hs
      cases hs
    · rw [hx s hs] at hsuf
      cases hsuf
  · intro s name hs hmem
    have h := plainLists_match_iff matchString config.DomainFilter config.ExcludeDomains name
    simp only [specFilterLibrary]
    rw [← Bool.not_eq_true, h, hs]
    rintro ⟨hi | ⟨s1, hs1, hsuf⟩, hx | hx⟩
    · cases hi
    · cases hi
    · rw [hx] at hmem
      cases hmem
    · simp only [List.mem_singleton] at hs1
      subst hs1
      rw [hx s1 hmem] at hsuf
      cases hsuf

theorem GetDomainFilter_plain_match_witness :
    (configWith ["example.com"] ["b.example.com"] "" "test").RegexDomainFilter = ""
    ∧ ∃ f : SpecFilter,
      GetDomainFilter literalFilterLibrary
          (configWith ["example.com"] ["b.example.com"] "" "test") = some f
      ∧ (∀ name : String,
          literalFilterLibrary.Match f name = true ↔
            (((configWith ["example.com"] ["b.example.com"] "" "test").DomainFilter = [] ∨
                ∃ s ∈ (configWith ["example.com"] ["b.example.com"] "" "test").DomainFilter,
                  HasSuffix name s = true)
              ∧ ((configWith ["example.com"] ["b.example.com"] "" "test").ExcludeDomains = [] ∨
                  ∀ s ∈ (configWith ["example.com"] ["b.example.com"] "" "test").ExcludeDomains,
                    HasSuffix name s = false)))
      ∧ (∀ (s name : String),
          (configWith ["example.com"] ["b.example.com"] "" "test").DomainFilter = [s] →
          (configWith ["example.com"] ["b.example.com"] "" "test").ExcludeDomains = [] →
          (literalFilterLibrary.Match f name = true ↔ HasSuffix name s = true))
      ∧ (∀ (s name : String),
          s ∈ (configWith ["example.com"] ["b.example.com"] "" "test").ExcludeDomains →
          HasSuffix name s = true → literalFilterLibrary.Match f name = false)
      ∧ (∀ (s name : String),
          (configWith ["example.com"] ["b.example.com"] "" "test").DomainFilter = [s] →
          s ∈ (configWith ["example.com"] ["b.example.com"] "" "test").ExcludeDomains →
          literalFilterLibrary.Match f name = false) :=
  ⟨rfl, GetDomainFilter_plain_match (fun pattern => pattern.data.all Char.isAlphanum) occursIn
    (configWith ["example.com"] ["b.example.com"] "" "test") rfl⟩

/-- C13. Against the matcher of the specification: for a configuration with
empty `DomainFilter` and `ExcludeDomains` and no regex filter,
`GetDomainFilter` builds a filter that matches every name, and `Records` on a
provider with this filter keeps every listed record of a supported type, in
listing order. -/
theorem GetDomainFilter_no_filter (compiles : String → Bool)
    (matchString : String → String → Bool) (config : Configuration)
    (hinc : config.DomainFilter = []) (hexc : config.ExcludeDomains = [])
    (hre : config.RegexDomainFilter = "") :
    ∃ f : SpecFilter,
      GetDomainFilter (specFilterLibrary compiles matchString) config = some f
      ∧ (∀ name : String, (specFilterLibrary compiles matchString).Match f name = true)
      ∧ ∀ (σ : Type) (lib : Library) (client : Client σ) (dryRun : Bool) (defaultTTL : Int)
          (s s1 : σ) (records : List RR), client.LocalData s = some (records, s1) →
          Records lib
              (providerWith (specFilterLibrary compiles matchString) client f dryRun defaultTTL)
              s =
            some (((records.filter (fun r => lib.SupportedRecordType r.Type_)).map
              (fun r => lib.NewEndpointWithTTL r.Name r.Type_ r.TTL [r.Value]), none), s1) := by
  have hall : ∀ name : String,
      (specFilterLibrary compiles matchString).Match
        ((specFilterLibrary compiles matchString).NewDomainFilterWithExclusions
          config.DomainFilter config.ExcludeDomains) name = true := by
    intro name
    simp [specFilterLibrary, SpecFilter.Match, hinc, hexc]
  refine ⟨_, GetDomainFilter_plain _ config hre, hall, ?_⟩
  intro σ lib client dryRun defaultTTL s s1 records hlist
  rw [Records_eq lib _ s s1 records hlist]
  simp only [kept, providerWith, hall, Bool.and_true]

theorem GetDomainFilter_no_filter_witness :
    (configWith [] [] "" "").DomainFilter = []
    ∧ (configWith [] [] "" "").ExcludeDomains = []
    ∧ (configWith [] [] "" "").RegexDomainFilter = ""
    ∧ ∃ f : SpecFilter,
      GetDomainFilter literalFilterLibrary (configWith [] [] "" "") = some f
      ∧ (∀ name : String, literalFilterLibrary.Match f name = true)
      ∧ ∀ (σ : Type) (lib : Library) (client : Client σ) (dryRun : Bool) (defaultTTL : Int)
          (s s1 : σ) (records : List RR), client.LocalData s = some (records, s1) →
          Records lib (providerWith literalFilterLibrary client f dryRun defaultTTL) s =
            some (((records.filter (fun r => lib.SupportedRecordType r.Type_)).map
              (fun r => lib.NewEndpointWithTTL r.Name r.Type_ r.TTL [r.Value]), none), s1) :=
  ⟨rfl, rfl, rfl,
    GetDomainFilter_no_filter (fun pattern => pattern.data.all Char.isAlphanum) occursIn
      (configWith [] [] "" "") rfl rfl rfl⟩

/-- C14. Against the matcher of the specification: for a configuration with a
non-empty `RegexDomainFilter` whose two patterns compile, `GetDomainFilter`
builds a filter that matches a name exactly when the name matches the
inclusion pattern and, if `RegexDomainExclusion` is non-empty, does not match
the exclusion pattern; with an empty `RegexDomainExclusion` the filter matches
exactly the names that match the inclusion pattern. -/
theorem GetDomainFilter_regex_match (compiles : String → Bool)
    (matchString : String → String → Bool) (config : Configuration)
    (hne : config.RegexDomainFilter ≠ "")
    (hc1 : compiles config.RegexDomainFilter = true)
    (hc2 : compiles config.RegexDomainExclusion = true) :
    ∃ f : SpecFilter,
      GetDomainFilter (specFilterLibrary compiles matchString) config = some f
      ∧ (∀ name : String,
          (specFilterLibrary compiles matchString).Match f name = true ↔
            (matchString config.RegexDomainFilter name = true
              ∧ (config.RegexDomainExclusion ≠ "" →
                  matchString config.RegexDomainExclusion name = false)))
      ∧ (config.RegexDomainExclusion = "" →
          ∀ name : String,
            (specFilterLibrary compiles matchString).Match f name =
              matchString config.RegexDomainFilter name) := by
  refine ⟨SpecFilter.regexLists config.RegexDomainFilter config.RegexDomainExclusion, ?_, ?_, ?_⟩
  · rw [GetDomainFilter_regex _ config hne]
    simp [specFilterLibrary, hc1, hc2]
  · intro name
    simp only [specFilterLibrary, SpecFilter.Match]
    by_cases hx : config.RegexDomainExclusion = ""
    · simp [hx]
    · simp [hx]
  · intro hx name
    simp [specFilterLibrary, SpecFilter.Match, hx]

theorem GetDomainFilter_regex_match_witness :
    (configWith ["example.com"] [] "lan" "test").RegexDomainFilter ≠ ""
    ∧ (fun pattern : String => pattern.data.all Char.isAlphanum)
        (configWith ["example.com"] [] "lan" "test").RegexDomainFilter = true
    ∧ (fun pattern : String => pattern.data.all Char.isAlphanum)
        (configWith ["example.com"] [] "lan" "test").RegexDomainExclusion = true
    ∧ ∃ f : SpecFilter,
      GetDomainFilter literalFilterLibrary (configWith ["example.com"] [] "lan" "test") = some f
      ∧ (∀ name : String,
          literalFilterLibrary.Match f name = true ↔
            (occursIn (configWith ["example.com"] [] "lan" "test").RegexDomainFilter name = true
              ∧ ((configWith ["example.com"] [] "lan" "test").RegexDomainExclusion ≠ "" →
                  occursIn (configWith ["example.com"] [] "lan" "test").RegexDomainExclusion name
                    = false)))
      ∧ ((configWith ["example.com"] [] "lan" "test").RegexDomainExclusion = "" →
          ∀ name : String,
            literalFilterLibrary.Match f name =
              occursIn (configWith ["example.com"] [] "lan" "test").RegexDomainFilter name) :=
  ⟨by decide, by decide, by decide,
    GetDomainFilter_regex_match (fun pattern => pattern.data.all Char.isAlphanum) occursIn
      (configWith ["example.com"] [] "lan" "test") (by decide) (by decide) (by decide)⟩

/-! ## Errors of ApplyChanges and Records -/

theorem submitLoop_error_origin {σ : Type} (p : UnboundProvider σ)
    (changes : List UnboundChange) (hk : ∀ c ∈ changes, KnownAction c) (s t : σ)
    (err : Error) (h : submitLoop p changes s = some (some err, t)) :
    ∃ (pre : List Call) (f : Call) (post : List Call) (sk : σ),
      changes.map callOf = pre ++ f :: post
      ∧ runOk p.client pre s = some sk
      ∧ execCall p.client f sk = some (some err, t) := by
  induction changes generalizing s with
  | nil => simp [submitLoop] at h
  | cons c cs ih =>
    have hne : ¬ actionRemove = actionCreate := by decide
    have hcs : ∀ x ∈ cs, KnownAction x := fun x hx => hk x (List.mem_cons_of_mem _ hx)
    by_cases hdry : p.dryRun = true
    · rw [submitLoop_dryRun p hdry] at h
      simp at h
    · simp only [submitLoop, hdry, Bool.false_eq_true, if_false] at h
      rcases hk c (List.mem_cons_self _ _) with hc | hc
      · have hcall : callOf c = Call.add c.RR := by simp [callOf, hc]
        simp only [hc, if_true] at h
        cases hadd : p.client.AddLocalData c.RR s with
        | none => simp [hadd] at h
        | some r =>
          obtain ⟨e, s1⟩ := r
          cases e with
          | some e1 =>
            simp only [hadd, Option.some.injEq, Prod.mk.injEq] at h
            obtain ⟨h1, h2⟩ := h
            subst h1 h2
            exact ⟨[], Call.add c.RR, cs.map callOf, s, by simp [hcall], rfl, hadd⟩
          | none =>
            simp only [hadd] at h
            obtain ⟨pre, f, post, sk, h1, h2, h3⟩ := ih hcs s1 h
            refine ⟨Call.add c.RR :: pre, f, post, sk, by simp [hcall, h1], ?_, h3⟩
            simp [runOk, execCall, hadd, h2]
      · have hcall : callOf c = Call.remove c.RR := by simp [callOf, hc, hne]
        simp only [hc, hne, if_true, if_false] at h
        cases hrem : p.client.RemoveLocalData c.RR s with
        | none => simp [hrem] at h
        | some r =>
          obtain ⟨e, s1⟩ := r
          cases e with
          | some e1 =>
            simp only [hrem, Option.some.injEq, Prod.mk.injEq] at h
            obtain ⟨h1, h2⟩ := h
            subst h1 h2
            exact ⟨[], Call.remove c.RR, cs.map callOf, s, by simp [hcall], rfl, hrem⟩
          | none =>
            simp only [hrem] at h
            obtain ⟨pre, f, post, sk, h1, h2, h3⟩ := ih hcs s1 h
            refine ⟨Call.remove c.RR :: pre, f, post, sk, by simp [hcall, h1], ?_, h3⟩
            simp [runOk, execCall, hrem, h2]

/-- C15, as the code has it. An error returned by `ApplyChanges` is the error
value that the client returned for the first failing call of the planned
sequence, handed on as it is: the calls before it returned nil, and nothing
about the change is added to the error. -/
theorem ApplyChanges_error_origin {σ : Type} (lib : Library) (p : UnboundProvider σ)
    (changes : Changes) (s t : σ) (err : Error)
    (h : ApplyChanges lib p changes s = some (some err, t)) :
    ∃ (pre : List Call) (f : Call) (post : List Call) (sk : σ),
      plannedCalls lib p.defaultTTL changes = pre ++ f :: post
      ∧ runOk p.client pre s = some sk
      ∧ execCall p.client f sk = some (some err, t) := by
  rw [ApplyChanges, submitChanges_eq_submitLoop] at h
  rw [← map_callOf_combinedChanges]
  exact submitLoop_error_origin p _ (knownAction_combinedChanges lib p changes) s t err h

theorem ApplyChanges_error_origin_witness :
    ApplyChanges plainLibrary (openProvider (refusingClient "b.lan") false 300) sampleChanges [] =
        some (some "refused", [recordA "a.lan" "10.0.0.1" 300, recordA "a.lan" "10.0.0.2" 300])
    ∧ ∃ (pre : List Call) (f : Call) (post : List Call) (sk : List RR),
      plannedCalls plainLibrary (openProvider (refusingClient "b.lan") false 300).defaultTTL
          sampleChanges = pre ++ f :: post
      ∧ runOk (openProvider (refusingClient "b.lan") false 300).client pre [] = some sk
      ∧ execCall (openProvider (refusingClient "b.lan") false 300).client f sk =
          some (some "refused", [recordA "a.lan" "10.0.0.1" 300, recordA "a.lan" "10.0.0.2" 300]) :=
  ⟨by decide,
    ApplyChanges_error_origin plainLibrary (openProvider (refusingClient "b.lan") false 300)
      sampleChanges [] [recordA "a.lan" "10.0.0.1" 300, recordA "a.lan" "10.0.0.2" 300] "refused"
      (by decide)⟩

/-- C15 fails as stated: on a client that answers every change with the same
error, the failing add of `a.lan`/`A`/`10.0.0.1` and the failing remove of
`b.lan`/`TXT`/`hello` make `ApplyChanges` return one and the same error. -/
theorem ApplyChanges_error_without_identity :
    ApplyChanges plainLibrary
        (withJournal (openProvider (brokenClient "connection refused") false 300))
        { Create := [endpointA "a.lan" ["10.0.0.1"] 60], UpdateOld := [], UpdateNew := [],
          Delete := [] } ([], []) =
      some (some "connection refused", ([], [Call.add (recordA "a.lan" "10.0.0.1" 60)]))
    ∧ ApplyChanges plainLibrary
        (withJournal (openProvider (brokenClient "connection refused") false 300))
        { Create := [], UpdateOld := [], UpdateNew := [],
          Delete := [{ DNSName := "b.lan", Targets := ["hello"], RecordType := "TXT",
                       SetIdentifier := "", RecordTTL := 120, Labels := [],
                       ProviderSpecific := [] }] } ([], []) =
      some (some "connection refused",
        ([], [Call.remove { Name := "b.lan", TTL := 120, Type_ := "TXT", Value := "hello" }])) := by
  decide

theorem Records_result {σ : Type} (lib : Library) (p : UnboundProvider σ) (s : σ)
    (r : (List (Option Endpoint) × Option Error) × σ) (h : Records lib p s = some r) :
    ∃ records : List RR,
      p.client.LocalData s = some (records, r.2)
      ∧ r.1.1 = (kept lib p records).map
          (fun x => lib.NewEndpointWithTTL x.Name x.Type_ x.TTL [x.Value])
      ∧ r.1.2 = none := by
  cases hlist : p.client.LocalData s with
  | none => simp [Records, hlist] at h
  | some l =>
    obtain ⟨records, s1⟩ := l
    rw [Records_eq lib p s s1 records hlist] at h
    simp only [Option.some.injEq] at h
    subst h
    exact ⟨records, rfl, rfl, rfl⟩

/-- C16, as the code has it. `Records` never fails: whenever the listing call
of the client returns, `Records` returns a nil error together with the entries
built, in listing order, from the listed records of a supported type whose
name passes the domain filter; and whatever `Records` returns carries a nil
error. `LocalData` has no error result, so nothing the client does can make
`Records` return an error. -/
theorem Records_nil_error {σ : Type} (lib : Library) (p : UnboundProvider σ) (s s1 : σ)
    (records : List RR) (hlist : p.client.LocalData s = some (records, s1)) :
    Records lib p s =
        some (((records.filter
            (fun x => lib.SupportedRecordType x.Type_ && p.domainFilter x.Name)).map
            (fun x => lib.NewEndpointWithTTL x.Name x.Type_ x.TTL [x.Value]), none), s1)
      ∧ ∀ r : (List (Option Endpoint) × Option Error) × σ,
          Records lib p s = some r → r.1.2 = none := by
  refine ⟨Records_eq lib p s s1 records hlist, ?_⟩
  intro r h
  obtain ⟨_, _, _, h3⟩ := Records_result lib p s r h
  exact h3

theorem Records_nil_error_witness :
    (suffixProvider (brokenClient "connection refused") "lan" false 300).client.LocalData
        [recordA "test.lan" "192.168.1.1" 300, recordA "a.example.com" "192.168.1.2" 60] =
      some ([recordA "test.lan" "192.168.1.1" 300, recordA "a.example.com" "192.168.1.2" 60],
        [recordA "test.lan" "192.168.1.1" 300, recordA "a.example.com" "192.168.1.2" 60])
    ∧ (Records plainLibrary (suffixProvider (brokenClient "connection refused") "lan" false 300)
          [recordA "test.lan" "192.168.1.1" 300, recordA "a.example.com" "192.168.1.2" 60] =
        some ((([recordA "test.lan" "192.168.1.1" 300,
              recordA "a.example.com" "192.168.1.2" 60].filter
            (fun x => plainLibrary.SupportedRecordType x.Type_ &&
              (suffixProvider (brokenClient "connection refused") "lan" false 300).domainFilter
                x.Name)).map
            (fun x => plainLibrary.NewEndpointWithTTL x.Name x.Type_ x.TTL [x.Value]), none),
          [recordA "test.lan" "192.168.1.1" 300, recordA "a.example.com" "192.168.1.2" 60])
      ∧ ∀ r : (List (Option Endpoint) × Option Error) × List RR,
          Records plainLibrary
              (suffixProvider (brokenClient "connection refused") "lan" false 300)
              [recordA "test.lan" "192.168.1.1" 300, recordA "a.example.com" "192.168.1.2" 60]
            = some r → r.1.2 = none) :=
  ⟨rfl,
    Records_nil_error plainLibrary
      (suffixProvider (brokenClient "connection refused") "lan" false 300)
      [recordA "test.lan" "192.168.1.1" 300, recordA "a.example.com" "192.168.1.2" 60]
      [recordA "test.lan" "192.168.1.1" 300, recordA "a.example.com" "192.168.1.2" 60]
      [recordA "test.lan" "192.168.1.1" 300, recordA "a.example.com" "192.168.1.2" 60] rfl⟩

/-- C16 fails as stated: there is no library, provider, client state and
result for which `Records` returns an error. -/
theorem Records_has_no_failing_state :
    ¬ ∃ (σ : Type) (lib : Library) (p : UnboundProvider σ) (s : σ)
        (r : (List (Option Endpoint) × Option Error) × σ) (err : Error),
        Records lib p s = some r ∧ r.1.2 = some err := by
  rintro ⟨σ, lib, p, s, r, err, h, herr⟩
  obtain ⟨_, _, _, h3⟩ := Records_result lib p s r h
  rw [h3] at herr
  cases herr

/-! ## The domain filter and ApplyChanges -/

theorem submitLoop_congr {σ : Type} (p q : UnboundProvider σ) (hc : p.client = q.client)
    (hd : p.dryRun = q.dryRun) (changes : List UnboundChange) (s : σ) :
    submitLoop p changes s = submitLoop q changes s := by
  induction changes generalizing s with
  | nil => simp [submitLoop]
  | cons c cs ih =>
    simp only [submitLoop, hc, hd, ih]

/-- C17, as the code has it. `ApplyChanges` does not consult the domain
filter: on the same client, with the same dry-run flag and default TTL, it
makes the same calls and returns the same result whatever the domain filter
of the provider is. -/
theorem ApplyChanges_ignores_domainFilter {σ : Type} (lib : Library) (client : Client σ)
    (filter1 filter2 : String → Bool) (dryRun : Bool) (defaultTTL : Int) (changes : Changes)
    (s : σ) (j : List Call) :
    ApplyChanges lib
        (withJournal { client := client, domainFilter := filter1, dryRun := dryRun,
                       defaultTTL := defaultTTL }) changes (s, j) =
      ApplyChanges lib
        (withJournal { client := client, domainFilter := filter2, dryRun := dryRun,
                       defaultTTL := defaultTTL }) changes (s, j)
    ∧ ApplyChanges lib
        { client := client, domainFilter := filter1, dryRun := dryRun, defaultTTL := defaultTTL }
        changes s =
      ApplyChanges lib
        { client := client, domainFilter := filter2, dryRun := dryRun, defaultTTL := defaultTTL }
        changes s := by
  constructor
  · simp only [ApplyChanges, submitChanges_eq_submitLoop]
    exact submitLoop_congr
      (withJournal { client := client, domainFilter := filter1, dryRun := dryRun,
                     defaultTTL := defaultTTL })
      (withJournal { client := client, domainFilter := filter2, dryRun := dryRun,
                     defaultTTL := defaultTTL }) rfl rfl _ _
  · simp only [ApplyChanges, submitChanges_eq_submitLoop]
    exact submitLoop_congr
      { client := client, domainFilter := filter1, dryRun := dryRun, defaultTTL := defaultTTL }
      { client := client, domainFilter := filter2, dryRun := dryRun, defaultTTL := defaultTTL }
      rfl rfl _ _

/-- C17 fails as stated: a provider whose domain filter accepts only the
names ending in `example.com` adds the record of `test.lan` it is asked to
create. -/
theorem ApplyChanges_writes_filtered_name :
    (suffixProvider storeClient "example.com" false 300).domainFilter "test.lan" = false
    ∧ ApplyChanges plainLibrary (withJournal (suffixProvider storeClient "example.com" false 300))
        { Create := [endpointA "test.lan" ["192.168.1.1"] 300], UpdateOld := [],
          UpdateNew := [], Delete := [] } ([], []) =
      some (none, ([recordA "test.lan" "192.168.1.1" 300],
        [Call.add (recordA "test.lan" "192.168.1.1" 300)])) := by
  decide

/-! ## Updates on a store -/

theorem store_update (lib : Library) (filter : String → Bool) (d : Int) (eOld eNew : Endpoint)
    (v1 v2 : String) (hOld : eOld.Targets = [v1]) (hNew : eNew.Targets = [v2]) (S : List RR) :
    ApplyChanges lib
        { client := storeClient, domainFilter := filter, dryRun := false, defaultTTL := d }
        { Create := [], UpdateOld := [eOld], UpdateNew := [eNew], Delete := [] } S =
      some (none,
        S.filter (fun r => decide (r ≠
            { Name := eOld.DNSName, TTL := recordTTL lib d eOld, Type_ := eOld.RecordType,
              Value := v1 }))
          ++ [{ Name := eNew.DNSName, TTL := recordTTL lib d eNew, Type_ := eNew.RecordType,
                Value := v2 }]) := by
  have hne : ¬ actionRemove = actionCreate := by decide
  simp [ApplyChanges, submitChanges, combinedChanges, newUnboundChange_single, hOld, hNew,
    submitLoop, storeClient, hne]

/-- C18, as the code has it. On a store in which add appends and remove
deletes every record equal to its argument, whether it holds the record
`(n, t, ttl, v1)` or not, for a TTL `ttl` that is configured or equal to the
default TTL of the provider and a value `v2` other than `v1`: `ApplyChanges` with the endpoint
`n/t/ttl/[v1]` in `UpdateOld` and `n/t/ttl/[v2]` in `UpdateNew`, dry-run
disabled, returns a nil error and leaves the records of the store other than
`(n, t, ttl, v1)`, in their order, followed by `(n, t, ttl, v2)`; so the new
record is present and the old one absent. -/
theorem ApplyChanges_update (lib : Library) (filter : String → Bool) (d : Int)
    (n t : String) (ttl : Int) (v1 v2 : String) (eOld eNew : Endpoint) (S : List RR)
    (hOld : eOld.view = (n, t, [v1], ttl)) (hNew : eNew.view = (n, t, [v2], ttl))
    (hne : v2 ≠ v1)
    (httl : lib.IsConfigured ttl = true ∨ ttl = d) :
    ∃ store : List RR,
      ApplyChanges lib
          { client := storeClient, domainFilter := filter, dryRun := false, defaultTTL := d }
          { Create := [], UpdateOld := [eOld], UpdateNew := [eNew], Delete := [] } S =
        some (none, store)
      ∧ store =
          S.filter (fun r => decide (r ≠ { Name := n, TTL := ttl, Type_ := t, Value := v1 }))
            ++ [{ Name := n, TTL := ttl, Type_ := t, Value := v2 }]
      ∧ { Name := n, TTL := ttl, Type_ := t, Value := v2 } ∈ store
      ∧ { Name := n, TTL := ttl, Type_ := t, Value := v1 } ∉ store := by
  simp only [Endpoint.view, Prod.mk.injEq] at hOld hNew
  obtain ⟨ho1, ho2, ho3, ho4⟩ := hOld
  obtain ⟨hn1, hn2, hn3, hn4⟩ := hNew
  have hto : recordTTL lib d eOld = ttl := by
    unfold recordTTL
    rw [ho4]
    rcases httl with h | h
    · simp [h]
    · simp [h]
  have htn : recordTTL lib d eNew = ttl := by
    unfold recordTTL
    rw [hn4]
    rcases httl with h | h
    · simp [h]
    · simp [h]
  have hs := store_update lib filter d eOld eNew v1 v2 ho3 hn3 S
  rw [hto, htn, ho1, ho2, hn1, hn2] at hs
  refine ⟨_, hs, rfl, ?_, ?_⟩
  · simp
  · simp only [List.mem_append, List.mem_filter, List.mem_singleton, not_or]
    refine ⟨fun h => ?_, fun h => ?_⟩
    · simpa using h.2
    · exact hne (congrArg RR.Value h).symm

theorem ApplyChanges_update_witness :
    (endpointA "test.lan" ["192.168.1.1"] 300).view = ("test.lan", "A", ["192.168.1.1"], 300)
    ∧ (endpointA "test.lan" ["192.168.1.2"] 300).view = ("test.lan", "A", ["192.168.1.2"], 300)
    ∧ "192.168.1.2" ≠ "192.168.1.1"
    ∧ (plainLibrary.IsConfigured 300 = true ∨ (300 : Int) = 7200)
    ∧ ∃ store : List RR,
      ApplyChanges plainLibrary
          { client := storeClient, domainFilter := fun _ => true, dryRun := false,
            defaultTTL := 7200 }
          { Create := [], UpdateOld := [endpointA "test.lan" ["192.168.1.1"] 300],
            UpdateNew := [endpointA "test.lan" ["192.168.1.2"] 300], Delete := [] }
          [recordA "test.lan" "192.168.1.1" 300,
           { Name := "a.example.com", TTL := 3600, Type_ := "CNAME", Value := "abc.def" }] =
        some (none, store)
      ∧ store =
          ([recordA "test.lan" "192.168.1.1" 300,
            { Name := "a.example.com", TTL := 3600, Type_ := "CNAME", Value := "abc.def" }]).filter
              (fun r => decide (r ≠
                { Name := "test.lan", TTL := 300, Type_ := "A", Value := "192.168.1.1" }))
            ++ [{ Name := "test.lan", TTL := 300, Type_ := "A", Value := "192.168.1.2" }]
      ∧ { Name := "test.lan", TTL := 300, Type_ := "A", Value := "192.168.1.2" } ∈ store
      ∧ { Name := "test.lan", TTL := 300, Type_ := "A", Value := "192.168.1.1" } ∉ store :=
  ⟨rfl, rfl, by decide, Or.inl (by decide),
    ApplyChanges_update plainLibrary (fun _ => true) 7200 "test.lan" "A" 300
      "192.168.1.1" "192.168.1.2" (endpointA "test.lan" ["192.168.1.1"] 300)
      (endpointA "test.lan" ["192.168.1.2"] 300)
      [recordA "test.lan" "192.168.1.1" 300,
       { Name := "a.example.com", TTL := 3600, Type_ := "CNAME", Value := "abc.def" }]
      rfl rfl (by decide) (Or.inl (by decide))⟩

/-- C18 fails as stated: with an unconfigured TTL (0) that differs from the
default TTL (300), the update removes and adds records of TTL 300, so the
stored record `(test.lan, A, 0, 192.168.1.1)` stays and
`(test.lan, A, 0, 192.168.1.2)` does not appear. -/
theorem ApplyChanges_update_unconfigured_ttl :
    plainLibrary.IsConfigured 0 = false
    ∧ ApplyChanges plainLibrary (openProvider storeClient false 300)
        { Create := [], UpdateOld := [endpointA "test.lan" ["192.168.1.1"] 0],
          UpdateNew := [endpointA "test.lan" ["192.168.1.2"] 0], Delete := [] }
        [recordA "test.lan" "192.168.1.1" 0] =
      some (none, [recordA "test.lan" "192.168.1.1" 0, recordA "test.lan" "192.168.1.2" 300])
    ∧ recordA "test.lan" "192.168.1.1" 0 ∈
        [recordA "test.lan" "192.168.1.1" 0, recordA "test.lan" "192.168.1.2" 300]
    ∧ recordA "test.lan" "192.168.1.2" 0 ∉
        [recordA "test.lan" "192.168.1.1" 0, recordA "test.lan" "192.168.1.2" 300] := by
  decide

/-! ## Health status and probes -/

/-- C19. Against the health status of the specification: `SetHealth b`
replaces the healthy flag by `b` and nothing else, so `IsHealthy` then returns
`b` and `IsReady` what it returned before; `SetReady b` replaces the ready flag
by `b` and nothing else, so `IsReady` then returns `b` and `IsHealthy` what it
returned before. -/
theorem HealthStatus_set (s : HealthStatus) (b : Bool) :
    (s.SetHealth b = { healthy := b, ready := s.ready }
        ∧ (s.SetHealth b).IsHealthy = b
        ∧ (s.SetHealth b).IsReady = s.IsReady)
      ∧ (s.SetReady b = { healthy := s.healthy, ready := b }
        ∧ (s.SetReady b).IsReady = b
        ∧ (s.SetReady b).IsHealthy = s.IsHealthy) :=
  ⟨⟨rfl, rfl, rfl⟩, ⟨rfl, rfl, rfl⟩⟩

theorem serve_ready (path : String) (hp : path = "/" ∨ path = "/ready") (s : HealthStatus) :
    HealthServer.serve path s =
      (some (if s.IsReady then StatusOK else StatusServiceUnavailable), s) := by
  unfold HealthServer.serve
  rw [if_pos hp]

theorem serve_health (s : HealthStatus) :
    HealthServer.serve "/health" s =
      (some (if s.IsHealthy then StatusOK else StatusServiceUnavailable), s) := by
  unfold HealthServer.serve
  have h1 : ¬ ("/health" = "/" ∨ "/health" = "/ready") := by decide
  rw [if_neg h1, if_pos rfl]

/-- C20. Against the probe routes of the specification: `/` and `/ready`
answer 200 exactly when the ready flag is set and 503 exactly when it is not,
`/health` answers 200 exactly when the healthy flag is set and 503 exactly
when it is not; on the status `HealthStatus{}` that `main` starts from, both
flags are unset and the three routes answer 503; and no request, whatever its
path, changes the status. -/
theorem HealthServer_probes (s : HealthStatus) :
    (((HealthServer.serve "/" s).1 = some 200 ↔ s.IsReady = true)
        ∧ ((HealthServer.serve "/" s).1 = some 503 ↔ s.IsReady = false))
      ∧ (((HealthServer.serve "/ready" s).1 = some 200 ↔ s.IsReady = true)
        ∧ ((HealthServer.serve "/ready" s).1 = some 503 ↔ s.IsReady = false))
      ∧ (((HealthServer.serve "/health" s).1 = some 200 ↔ s.IsHealthy = true)
        ∧ ((HealthServer.serve "/health" s).1 = some 503 ↔ s.IsHealthy = false))
      ∧ (HealthStatus.zero.IsHealthy = false ∧ HealthStatus.zero.IsReady = false
        ∧ (HealthServer.serve "/" HealthStatus.zero).1 = some 503
        ∧ (HealthServer.serve "/ready" HealthStatus.zero).1 = some 503
        ∧ (HealthServer.serve "/health" HealthStatus.zero).1 = some 503)
      ∧ ∀ path : String, (HealthServer.serve path s).2 = s := by
  refine ⟨?_, ?_, ?_, ⟨rfl, rfl, by decide, by decide, by decide⟩, ?_⟩
  · rw [serve_ready "/" (Or.inl rfl)]
    cases h : s.IsReady <;> simp [StatusOK, StatusServiceUnavailable]
  · rw [serve_ready "/ready" (Or.inr rfl)]
    cases h : s.IsReady <;> simp [StatusOK, StatusServiceUnavailable]
  · rw [serve_health]
    cases h : s.IsHealthy <;> simp [StatusOK, StatusServiceUnavailable]
  · intro path
    unfold HealthServer.serve
    split
    · rfl
    · split <;> rfl

/-! ## Plain lists and RegexDomainExclusion -/

/-- C22. For a configuration with an empty `RegexDomainFilter`,
`GetDomainFilter` builds the plain-list filter from `DomainFilter` and
`ExcludeDomains` and never reads `RegexDomainExclusion`: a second
configuration with an empty `RegexDomainFilter` and the same two lists gets
the same filter, which gives the same answer on every name, whatever the two
`RegexDomainExclusion` values are. -/
theorem GetDomainFilter_plain_precedence {Regexp F : Type} (fl : FilterLibrary Regexp F)
    (c1 c2 : Configuration)
    (he1 : c1.RegexDomainFilter = "") (he2 : c2.RegexDomainFilter = "")
    (hinc : c2.DomainFilter = c1.DomainFilter)
    (hexc : c2.ExcludeDomains = c1.ExcludeDomains) :
    GetDomainFilter fl c1 =
        some (fl.NewDomainFilterWithExclusions c1.DomainFilter c1.ExcludeDomains)
      ∧ GetDomainFilter fl c2 = GetDomainFilter fl c1
      ∧ ∀ name : String,
          (GetDomainFilter fl c2).map (fun f => fl.Match f name) =
            (GetDomainFilter fl c1).map (fun f => fl.Match f name) := by
  have h1 := GetDomainFilter_plain fl c1 he1
  have h2 := GetDomainFilter_plain fl c2 he2
  rw [hinc, hexc] at h2
  refine ⟨h1, h2.trans h1.symm, ?_⟩
  intro name
  rw [h2.trans h1.symm]

theorem GetDomainFilter_plain_precedence_witness :
    (configWith ["example.com"] ["b.example.com"] "" "test").RegexDomainFilter = ""
    ∧ (configWith ["example.com"] ["b.example.com"] "" "(").RegexDomainFilter = ""
    ∧ (configWith ["example.com"] ["b.example.com"] "" "(").DomainFilter =
        (configWith ["example.com"] ["b.example.com"] "" "test").DomainFilter
    ∧ (configWith ["example.com"] ["b.example.com"] "" "(").ExcludeDomains =
        (configWith ["example.com"] ["b.example.com"] "" "test").ExcludeDomains
    ∧ (GetDomainFilter literalFilterLibrary
          (configWith ["example.com"] ["b.example.com"] "" "test") =
        some (literalFilterLibrary.NewDomainFilterWithExclusions
          (configWith ["example.com"] ["b.example.com"] "" "test").DomainFilter
          (configWith ["example.com"] ["b.example.com"] "" "test").ExcludeDomains)
      ∧ GetDomainFilter literalFilterLibrary
          (configWith ["example.com"] ["b.example.com"] "" "(") =
        GetDomainFilter literalFilterLibrary
          (configWith ["example.com"] ["b.example.com"] "" "test")
      ∧ ∀ name : String,
          (GetDomainFilter literalFilterLibrary
              (configWith ["example.com"] ["b.example.com"] "" "(")).map
              (fun f => literalFilterLibrary.Match f name) =
            (GetDomainFilter literalFilterLibrary
                (configWith ["example.com"] ["b.example.com"] "" "test")).map
              (fun f => literalFilterLibrary.Match f name)) :=
  ⟨rfl, rfl, rfl, rfl,
    GetDomainFilter_plain_precedence literalFilterLibrary
      (configWith ["example.com"] ["b.example.com"] "" "test")
      (configWith ["example.com"] ["b.example.com"] "" "(") rfl rfl rfl rfl⟩

/-! ## Create followed by delete -/

theorem storeClient_add (rr : RR) (s : List RR) :
    storeClient.AddLocalData rr s = some (none, s ++ [rr]) := rfl

theorem storeClient_remove (rr : RR) (s : List RR) :
    storeClient.RemoveLocalData rr s = some (none, s.filter (fun r => decide (r ≠ rr))) := rfl

theorem store_submit_creates (p : UnboundProvider (List RR)) (hc : p.client = storeClient)
    (hd : p.dryRun = false) (rrs : List RR) (s : List RR) :
    submitLoop p (rrs.map (fun rr => { Action := actionCreate, RR := rr })) s =
      some (none, s ++ rrs) := by
  induction rrs generalizing s with
  | nil => simp [submitLoop]
  | cons rr rrs ih =>
    simp only [List.map_cons, submitLoop, hd, hc, storeClient_add, Bool.false_eq_true,
      if_false, if_true]
    rw [ih]
    simp

theorem store_submit_removes (p : UnboundProvider (List RR)) (hc : p.client = storeClient)
    (hd : p.dryRun = false) (rrs : List RR) (s : List RR) :
    submitLoop p (rrs.map (fun rr => { Action := actionRemove, RR := rr })) s =
      some (none, s.filter (fun r => decide (r ∉ rrs))) := by
  have hne : ¬ actionRemove = actionCreate := by decide
  induction rrs generalizing s with
  | nil => simp [submitLoop]
  | cons rr rrs ih =>
    simp only [List.map_cons, submitLoop, hd, hc, storeClient_remove, hne, Bool.false_eq_true,
      if_false, if_true]
    rw [ih, List.filter_filter]
    congr 2
    apply List.filter_congr
    intro r _
    by_cases h1 : r = rr
    · simp [h1]
    · by_cases h2 : r ∈ rrs
      · simp [h1, h2]
      · simp [h1, h2]

theorem filter_append_fresh (S X : List RR) (hfresh : ∀ r ∈ X, r ∉ S) :
    (S ++ X).filter (fun r => decide (r ∉ X)) = S := by
  rw [List.filter_append]
  have h1 : S.filter (fun r => decide (r ∉ X)) = S := by
    rw [List.filter_eq_self]
    intro a ha
    simp only [decide_eq_true_eq]
    exact fun hx => hfresh a hx ha
  have h2 : X.filter (fun r => decide (r ∉ X)) = [] := by
    rw [List.filter_eq_nil_iff]
    intro a ha
    simp [ha]
  rw [h1, h2, List.append_nil]

/-- C23. On a store in which add appends and remove deletes every record equal
to its argument, for a provider with dry-run disabled, an endpoint `E` and a
store `S` holding none of the records that `newUnboundChange` builds for `E`:
the removals built for `E` carry the same records as the upserts built for
`E`, `ApplyChanges` with `Create = [E]` returns a nil error, and
`ApplyChanges` with `Delete = [E]` on the store it left returns a nil error
and leaves `S`. -/
theorem create_then_delete (lib : Library) (p : UnboundProvider (List RR)) (E : Endpoint)
    (S : List RR)
    (hc : p.client = storeClient) (hd : p.dryRun = false)
    (hfresh : ∀ c ∈ newUnboundChange lib p actionCreate [E], c.RR ∉ S) :
    (newUnboundChange lib p actionRemove [E]).map (fun c => c.RR) =
        (newUnboundChange lib p actionCreate [E]).map (fun c => c.RR)
      ∧ ∃ S1 : List RR,
          ApplyChanges lib p { Create := [E], UpdateOld := [], UpdateNew := [], Delete := [] } S =
            some (none, S1)
          ∧ ApplyChanges lib p { Create := [], UpdateOld := [], UpdateNew := [], Delete := [E] }
              S1 = some (none, S) := by
  have hfresh1 : ∀ r ∈ expand lib p.defaultTTL E, r ∉ S := by
    intro r hr
    apply hfresh { Action := actionCreate, RR := r }
    rw [newUnboundChange_eq]
    simp only [List.flatMap_cons, List.flatMap_nil, List.append_nil, List.mem_map]
    exact ⟨r, hr, rfl⟩
  refine ⟨?_, S ++ expand lib p.defaultTTL E, ?_, ?_⟩
  · simp [newUnboundChange_eq, List.map_map, Function.comp_def]
  · simp only [ApplyChanges, submitChanges_eq_submitLoop, combinedChanges, newUnboundChange_eq,
      List.flatMap_nil, List.append_nil, List.nil_append, List.flatMap_cons]
    exact store_submit_creates p hc hd _ S
  · simp only [ApplyChanges, submitChanges_eq_submitLoop, combinedChanges, newUnboundChange_eq,
      List.flatMap_nil, List.append_nil, List.nil_append, List.flatMap_cons]
    rw [store_submit_removes p hc hd, filter_append_fresh S _ hfresh1]

theorem create_then_delete_witness :
    (openProvider storeClient false 7200).client = storeClient
    ∧ (openProvider storeClient false 7200).dryRun = false
    ∧ (∀ c ∈ newUnboundChange plainLibrary (openProvider storeClient false 7200) actionCreate
          [endpointA "test.lan" ["192.168.1.1", "192.168.1.2", "192.168.1.1"] 0],
        c.RR ∉ [recordA "test.lan" "192.168.1.1" 300, recordA "other.lan" "192.168.1.1" 7200])
    ∧ ((newUnboundChange plainLibrary (openProvider storeClient false 7200) actionRemove
            [endpointA "test.lan" ["192.168.1.1", "192.168.1.2", "192.168.1.1"] 0]).map
          (fun c => c.RR) =
        (newUnboundChange plainLibrary (openProvider storeClient false 7200) actionCreate
            [endpointA "test.lan" ["192.168.1.1", "192.168.1.2", "192.168.1.1"] 0]).map
          (fun c => c.RR)
      ∧ ∃ S1 : List RR,
          ApplyChanges plainLibrary (openProvider storeClient false 7200)
              { Create := [endpointA "test.lan" ["192.168.1.1", "192.168.1.2", "192.168.1.1"] 0],
                UpdateOld := [], UpdateNew := [], Delete := [] }
              [recordA "test.lan" "192.168.1.1" 300, recordA "other.lan" "192.168.1.1" 7200] =
            some (none, S1)
          ∧ ApplyChanges plainLibrary (openProvider storeClient false 7200)
              { Create := [], UpdateOld := [], UpdateNew := [],
                Delete := [endpointA "test.lan" ["192.168.1.1", "192.168.1.2", "192.168.1.1"] 0] }
              S1 =
            some (none,
              [recordA "test.lan" "192.168.1.1" 300, recordA "other.lan" "192.168.1.1" 7200])) :=
  ⟨rfl, rfl, by decide,
    create_then_delete plainLibrary (openProvider storeClient false 7200)
      (endpointA "test.lan" ["192.168.1.1", "192.168.1.2", "192.168.1.1"] 0)
      [recordA "test.lan" "192.168.1.1" 300, recordA "other.lan" "192.168.1.1" 7200]
      rfl rfl (by decide)⟩

end Unbound
